import Mathlib

/-!
Verification of the cgmguru CGM episode-detection engine against its
natural-language specification.  The C++ sources are shallowly embedded:
timestamps (seconds) and glucose values are rationals, a missing (NA)
glucose value is `none`, and every detector is translated loop-for-loop
into a fuel-indexed recursive function.  The fuel is always instantiated
with the series length, which bounds every loop of the source.
-/

set_option maxRecDepth 20000

namespace CgmGuru

/-- A subject-scoped CGM series: `t` are the timestamps in seconds and `g`
the optional glucose values (`none` encodes an NA reading).  This mirrors
the `time_subset` / `glucose_subset` pair handed to every per-id
calculator. -/
structure Series where
  t : List ℚ
  g : List (Option ℚ)
deriving DecidableEq

/-- Number of readings (`n_subset` in the source). -/
def Series.n (s : Series) : ℕ := s.t.length

/-- Timestamp access, `time_subset[i]`. -/
def Series.tv (s : Series) (i : ℕ) : ℚ := s.t.getD i 0

/-- The `valid_glucose[i]` cache of the source: true when the reading is
not NA. -/
def Series.valid (s : Series) (i : ℕ) : Bool := (s.g.getD i none).isSome

/-- The `glucose_values[i]` cache of the source: the value when valid,
`0.0` when NA. -/
def Series.gval (s : Series) (i : ℕ) : ℚ := (s.g.getD i none).getD 0

/-- Write a marker into position `i` of the marker vector, leaving the
vector unchanged when the index is out of range. -/
def setIdx : List ℤ → ℕ → ℤ → List ℤ
  | [], _, _ => []
  | _ :: xs, 0, v => v :: xs
  | x :: xs, Nat.succ k, v => x :: setIdx xs k v

/-- Marker write through a possibly-negative (sentinel `-1`) index: a
negative or out-of-range index leaves the vector unchanged (the source
always guards such writes with `idx >= 0`). -/
def setIdxZ : List ℤ → ℤ → ℤ → List ℤ
  | [], _, _ => []
  | x :: xs, i, v =>
    if i = 0 then v :: xs else if i < 0 then x :: xs else x :: setIdxZ xs (i - 1) v

/-- Rational-list access through an integer index (`0` out of range). -/
def getQZ : List ℚ → ℤ → ℚ
  | [], _ => 0
  | x :: xs, i => if i = 0 then x else if i < 0 then 0 else getQZ xs (i - 1)

/-- Timestamp access through an integer (possibly sentinel) index. -/
def Series.tvz (s : Series) (i : ℤ) : ℚ := getQZ s.t i

/-- Optional-glucose access through an integer index. -/
def getOZ : List (Option ℚ) → ℤ → Option ℚ
  | [], _ => none
  | x :: xs, i => if i = 0 then x else if i < 0 then none else getOZ xs (i - 1)

/-- `valid_glucose` through an integer index. -/
def Series.validz (s : Series) (i : ℤ) : Bool := (getOZ s.g i).isSome

/-- `glucose_values` through an integer index. -/
def Series.gvalz (s : Series) (i : ℤ) : ℚ := (getOZ s.g i).getD 0

/-- The 0.1-minute jitter tolerance (`epsilon_minutes` / `tolerance_minutes`
constant used throughout the detectors). -/
def epsMin : ℚ := 1 / 10

/-- `calculate_min_readings` of detect_hypoglycemic_events.cpp,
detect_hyperglycemic_events.cpp and detect_all_events.cpp:
`ceil(((max(0, dur_length - 0.1)) / reading_minutes) / 4 * 3)`. -/
def calcMinReadings (readingMinutes durLength : ℚ) : ℤ :=
  ⌈(max 0 (durLength - 1 / 10) / readingMinutes) / 4 * 3⌉

/-- `calculate_min_readings` of detect_excl_level1_hyperglycemic_events.cpp:
`ceil((dur_length / reading_minutes) / 4 * 3)`, with no jitter tolerance. -/
def calcMinReadingsExcl (readingMinutes durLength : ℚ) : ℤ :=
  ⌈(durLength / readingMinutes) / 4 * 3⌉

/-! ## Level-1-exclusive hyperglycemic detector
(`calculate_level1_hyper_events_for_id` in
detect_excl_level1_hyperglycemic_events.cpp). -/

/-- Configuration of the level-1-exclusive detector. -/
structure Lvl1Cfg where
  durLength : ℚ
  endLength : ℚ
  glMin : ℚ
  glMax : ℚ
  endGl : ℚ
deriving DecidableEq

/-- Scanner state of the level-1-exclusive detector. -/
structure Lvl1State where
  markers : List ℤ
  inEvent : Bool
  startIdx : ℤ
  lastInRange : ℤ
deriving DecidableEq

/-- The sustained-recovery while loop of the level-1 detector: advance
`k2` while the next reading stays inside the `end_length` window, breaking
when a valid reading rises above `end_gl`.  Returns the broken flag and
the final `last_recovery_idx` (which the loop keeps equal to `k2`). -/
def lvl1RecLoop (cfg : Lvl1Cfg) (s : Series) (rst : ℚ) : ℕ → ℕ → Bool × ℕ
  | 0, k2 => (false, k2)
  | fuel + 1, k2 =>
    if k2 + 1 < s.n ∧ s.tv (k2 + 1) - rst ≤ cfg.endLength * 60 then
      if s.valid (k2 + 1) ∧ s.gval (k2 + 1) > cfg.endGl then (true, k2)
      else lvl1RecLoop cfg s rst fuel (k2 + 1)
    else (false, k2)

/-- One non-gap, non-final iteration of the level-1 detector's while loop. -/
def lvl1Step (cfg : Lvl1Cfg) (s : Series) (j : ℕ) (st : Lvl1State) : Lvl1State :=
  if ¬ st.inEvent then
    if s.valid j ∧ s.gval j > cfg.glMin ∧ s.gval j ≤ cfg.glMax then
      { markers := setIdx st.markers j 2, inEvent := true,
        startIdx := (j : ℤ), lastInRange := (j : ℤ) }
    else st
  else
    if s.valid j ∧ s.gval j > cfg.glMin ∧ s.gval j ≤ cfg.glMax then
      { st with lastInRange := (j : ℤ) }
    else if s.valid j ∧ s.gval j ≤ cfg.endGl then
      let dur : ℚ :=
        if st.startIdx ≤ st.lastInRange then
          (s.tvz st.lastInRange - s.tvz st.startIdx) / 60
        else 0
      if dur + epsMin ≥ cfg.durLength then
        let res := lvl1RecLoop cfg s (s.tv j) s.n j
        if ¬ res.1 ∧ (s.tv res.2 - s.tv j) / 60 + epsMin ≥ cfg.endLength then
          { markers := setIdx st.markers j (-1), inEvent := false,
            startIdx := -1, lastInRange := -1 }
        else st
      else st
    else st

/-- Main while loop of `calculate_level1_hyper_events_for_id`: the data-gap
branch closes (marks `-1`) an ongoing event unconditionally, the last index
closes an ongoing event and breaks, other indices run `lvl1Step`. -/
def lvl1Loop (cfg : Lvl1Cfg) (s : Series) : ℕ → ℕ → Lvl1State → Lvl1State
  | 0, _, st => st
  | fuel + 1, j, st =>
    if j < s.n then
      if j < s.n - 1 ∧ s.tv (j + 1) - s.tv j > (cfg.endLength + epsMin) * 60 then
        let st1 :=
          if st.inEvent ∧ st.startIdx ≠ -1 then
            { st with markers := setIdx st.markers j (-1), inEvent := false, startIdx := -1 }
          else st
        lvl1Loop cfg s fuel (j + 1) st1
      else if j = s.n - 1 then
        if st.inEvent ∧ st.startIdx ≠ -1 then
          { st with markers := setIdx st.markers j (-1) }
        else st
      else lvl1Loop cfg s fuel (j + 1) (lvl1Step cfg s j st)
    else st

/-- `calculate_level1_hyper_events_for_id`: returns the marker vector
(`2` = episode start, `-1` = episode end). -/
def calculateLevel1HyperEventsForId (cfg : Lvl1Cfg) (s : Series) : List ℤ :=
  (lvl1Loop cfg s s.n 0
    { markers := List.replicate s.n 0, inEvent := false,
      startIdx := -1, lastInRange := -1 }).markers

/-- Pairing of `2` / `-1` markers into episode index pairs, as done by the
`process_events_with_total_optimized` loops of every detector (the start
index is kept as the integer `start_idx` variable of the source). -/
def extractEpisodesAux : List ℤ → ℕ → ℤ → List (ℤ × ℕ)
  | [], _, _ => []
  | v :: rest, i, cur =>
    if v = 2 then extractEpisodesAux rest (i + 1) (i : ℤ)
    else if v = -1 ∧ cur ≠ -1 then
      (cur, i) :: extractEpisodesAux rest (i + 1) (-1)
    else extractEpisodesAux rest (i + 1) cur

/-- Episode (start, end) index pairs of a marker vector. -/
def extractEpisodes (m : List ℤ) : List (ℤ × ℕ) := extractEpisodesAux m 0 (-1)

/-- Count of readings in `[lo, hi]` that qualify for the level-1 band
(valid and strictly above `glMin`, at most `glMax`). -/
def inRangeCount (cfg : Lvl1Cfg) (s : Series) (lo hi : ℕ) : ℕ :=
  ((List.range (hi + 1 - lo)).map (fun k => lo + k)).countP
    (fun j => s.valid j ∧ s.gval j > cfg.glMin ∧ s.gval j ≤ cfg.glMax)

/-! ## Standalone hypoglycemic detector
(`calculate_hypo_events_for_id` in detect_hypoglycemic_events.cpp). -/

/-- Configuration of the hypoglycemic detector, matching the parameters of
`calculate_hypo_events_for_id`. -/
structure HypoCfg where
  minReadings : ℤ
  durLength : ℚ
  endLength : ℚ
  startGl : ℚ
  readingMinutes : ℚ
deriving DecidableEq

/-- Scanner state of the hypoglycemic detector (`-1` sentinels as in the
source). -/
structure HypoState where
  markers : List ℤ
  inEvent : Bool
  eventStart : ℤ
  hypoCount : ℕ
  lastHypo : ℤ
deriving DecidableEq

/-- The `event_duration_minutes` / `consecutive_duration_minutes`
computation shared by the gap branch, the recovery branch and the
end-of-data block: the span from the event start to the last hypoglycemic
reading plus one `reading_minutes` compensation, `0` when no hypoglycemic
reading was recorded after the start. -/
def hypoCoreDuration (cfg : HypoCfg) (s : Series) (st : HypoState) : ℚ :=
  if st.eventStart ≤ st.lastHypo then
    (s.tvz st.lastHypo - s.tvz st.eventStart) / 60 + cfg.readingMinutes
  else 0

/-- The core acceptance test used both when a large gap ends an ongoing
event and when the series ends while still in an event:
`(event_duration_minutes + epsilon >= dur_length) && (hypo_count >= min_readings)`. -/
def hypoCoreAccept (cfg : HypoCfg) (s : Series) (st : HypoState) : Bool :=
  decide (hypoCoreDuration cfg s st + epsMin ≥ cfg.durLength) &&
    decide ((st.hypoCount : ℤ) ≥ cfg.minReadings)

/-- The sustained-recovery while loop of the hypoglycemic detector:
starting at `k = i`, advance while the next reading stays inside the
`end_length` window; a valid reading back below `start_gl` breaks the
recovery.  Returns the broken flag and the final `last_recovery_idx`
(kept equal to `k`). -/
def hypoRecLoop (cfg : HypoCfg) (s : Series) (rst : ℚ) : ℕ → ℕ → Bool × ℕ
  | 0, k => (false, k)
  | fuel + 1, k =>
    if k + 1 < s.n ∧ s.tv (k + 1) - rst ≤ cfg.endLength * 60 then
      if s.valid (k + 1) ∧ s.gval (k + 1) < cfg.startGl then (true, k)
      else hypoRecLoop cfg s rst fuel (k + 1)
    else (false, k)

/-- Marker writes of the gap branch and end-of-data block: mark the start
with `2` and the last hypoglycemic reading with `-1`, falling back to
`fallback` when no hypoglycemic reading was recorded after the start. -/
def hypoEmit (st : HypoState) (fallback : ℤ) : List ℤ :=
  let m1 := setIdxZ st.markers st.eventStart 2
  if st.lastHypo ≥ 0 then setIdxZ m1 st.lastHypo (-1)
  else setIdxZ m1 fallback (-1)

/-- One iteration of the main loop of `calculate_hypo_events_for_id`:
gap branch first, then the NA skip, then entry / in-event handling with
the three-stage (count, duration, sustained-recovery) close test. -/
def hypoStep (cfg : HypoCfg) (s : Series) (i : ℕ) (st : HypoState) : HypoState :=
  if 0 < i ∧ s.tv i - s.tv (i - 1) > (cfg.endLength + epsMin) * 60 then
    if st.inEvent ∧ st.eventStart ≠ -1 then
      { markers := if hypoCoreAccept cfg s st then hypoEmit st ((i : ℤ) - 1) else st.markers,
        inEvent := false, eventStart := -1, hypoCount := st.hypoCount, lastHypo := -1 }
    else st
  else if ¬ s.valid i then st
  else if ¬ st.inEvent then
    if s.gval i < cfg.startGl then
      { st with inEvent := true, eventStart := (i : ℤ), hypoCount := 1 }
    else st
  else
    if s.gval i < cfg.startGl then
      { st with hypoCount := st.hypoCount + 1, lastHypo := (i : ℤ) }
    else
      if (st.hypoCount : ℤ) < cfg.minReadings then st
      else
        if hypoCoreDuration cfg s st + epsMin ≥ cfg.durLength then
          let res := hypoRecLoop cfg s (s.tv i) s.n i
          let kf := res.2
          let totalRec := (s.tv kf - s.tv i) / 60 + cfg.readingMinutes
          let noReading := ¬ (kf + 1 < s.n ∧ s.tv (kf + 1) - s.tv i ≤ cfg.endLength * 60)
          if ¬ res.1 ∧ (totalRec + epsMin ≥ cfg.endLength ∨ noReading) then
            { markers := hypoEmit st ((i : ℤ) - 1), inEvent := false,
              eventStart := -1, hypoCount := 0, lastHypo := -1 }
          else st
        else st

/-- Main loop over the indices of the series. -/
def hypoLoop (cfg : HypoCfg) (s : Series) : ℕ → ℕ → HypoState → HypoState
  | 0, _, st => st
  | fuel + 1, i, st =>
    if i < s.n then hypoLoop cfg s fuel (i + 1) (hypoStep cfg s i st) else st

/-- End-of-data block of `calculate_hypo_events_for_id`: if the series
ends while still in an event, finalize it at the last hypoglycemic reading
(falling back to the last reading) when `hypoCoreAccept` holds. -/
def hypoFinalize (cfg : HypoCfg) (s : Series) (st : HypoState) : List ℤ :=
  if st.inEvent ∧ st.eventStart ≠ -1 then
    if hypoCoreAccept cfg s st then hypoEmit st ((s.n : ℤ) - 1) else st.markers
  else st.markers

/-- `calculate_hypo_events_for_id`: marker vector of the hypoglycemic
detector. -/
def calculateHypoEventsForId (cfg : HypoCfg) (s : Series) : List ℤ :=
  hypoFinalize cfg s
    (hypoLoop cfg s s.n 0
      { markers := List.replicate s.n 0, inEvent := false,
        eventStart := -1, hypoCount := 0, lastHypo := -1 })

/-! ## Standalone hyperglycemic detector
(`calculate_hyper_events_for_id` in detect_hyperglycemic_events.cpp; the
two textual copies of its phase-1 loop — for `start_gl == end_gl` and
otherwise — are identical, so they are embedded once). -/

/-- Configuration of the hyperglycemic detectors. -/
structure HyperCfg where
  minReadings : ℤ
  durLength : ℚ
  endLength : ℚ
  startGl : ℚ
  endGl : ℚ
  readingMinutes : ℚ
deriving DecidableEq

/-- Phase-1 core-scanner state of the hyperglycemic detector. -/
structure HyperP1State where
  cores : List (ℤ × ℤ)
  inCore : Bool
  coreStart : ℤ
  coreEnd : ℤ
  coreDur : ℚ
  coreCount : ℕ
deriving DecidableEq

/-- Phase-1 step of the standalone hyperglycemic detector: extending a
core advances `core_end` to `i` and accumulates the interval to the
previous reading; leaving it closes the core under the duration and
count tests. -/
def hyperP1Step (cfg : HyperCfg) (s : Series) (i : ℕ) (st : HyperP1State) : HyperP1State :=
  if ¬ s.valid i then st
  else if ¬ st.inCore then
    if s.gval i > cfg.startGl then
      { st with inCore := true
                coreStart := (i : ℤ)
                coreEnd := (i : ℤ)
                coreDur := 0
                coreCount := 1 }
    else st
  else
    if s.gval i > cfg.startGl then
      { st with coreEnd := (i : ℤ)
                coreDur :=
                  if st.coreStart < (i : ℤ) then st.coreDur + (s.tv i - s.tv (i - 1)) / 60
                  else st.coreDur
                coreCount := st.coreCount + 1 }
    else
      let keep := st.coreDur + cfg.readingMinutes + epsMin ≥ cfg.durLength ∧
        (st.coreCount : ℤ) ≥ cfg.minReadings
      { cores := if keep then st.cores ++ [(st.coreStart, st.coreEnd)] else st.cores,
        inCore := false, coreStart := -1, coreEnd := -1, coreDur := 0, coreCount := 0 }

/-- Phase-1 loop of the standalone hyperglycemic detector over all indices. -/
def hyperP1Loop (cfg : HyperCfg) (s : Series) : ℕ → ℕ → HyperP1State → HyperP1State
  | 0, _, st => st
  | fuel + 1, i, st =>
    if i < s.n then hyperP1Loop cfg s fuel (i + 1) (hyperP1Step cfg s i st) else st

/-- Accepted core intervals of the standalone hyperglycemic detector,
including the still-open core evaluated at the end of the data. -/
def hyperCores (cfg : HyperCfg) (s : Series) : List (ℤ × ℤ) :=
  let st := hyperP1Loop cfg s s.n 0
    { cores := [], inCore := false, coreStart := -1, coreEnd := -1, coreDur := 0, coreCount := 0 }
  if st.inCore ∧ st.coreStart ≠ -1 then
    if st.coreDur + cfg.readingMinutes + epsMin ≥ cfg.durLength ∧
        (st.coreCount : ℤ) ≥ cfg.minReadings then
      st.cores ++ [(st.coreStart, st.coreEnd)]
    else st.cores
  else st.cores

/-- Inner sustain loop of the standalone hyperglycemic recovery scan:
from `k`, skip NA readings, break when a valid reading rises above
`end_gl`, otherwise accumulate the interval to the next reading (or one
`reading_minutes` at the last reading) and succeed at the first `k` where
the accumulated minutes reach `end_length + reading_minutes`. -/
def hyperSustainLoop (cfg : HyperCfg) (s : Series) : ℕ → ℤ → ℚ → Option ℤ
  | 0, _, _ => none
  | fuel + 1, k, sus =>
    if k < (s.n : ℤ) then
      if ¬ s.validz k then hyperSustainLoop cfg s fuel (k + 1) sus
      else if s.gvalz k > cfg.endGl then none
      else
        let sus1 := sus + (if k < (s.n : ℤ) - 1 then s.tvz (k + 1) - s.tvz k
          else cfg.readingMinutes * 60)
        if sus1 / 60 ≥ cfg.endLength + cfg.readingMinutes then some k
        else hyperSustainLoop cfg s fuel (k + 1) sus1
    else none

/-- Outer recovery scan of the standalone hyperglycemic detector: find the
first valid reading at or below `end_gl` whose sustain loop succeeds, and
return the recovery end index. -/
def hyperScanLoop (cfg : HyperCfg) (s : Series) : ℕ → ℤ → Option ℤ
  | 0, _ => none
  | fuel + 1, i =>
    if i < (s.n : ℤ) then
      if ¬ s.validz i then hyperScanLoop cfg s fuel (i + 1)
      else if s.gvalz i ≤ cfg.endGl then
        match hyperSustainLoop cfg s s.n i 0 with
        | some rEnd => some rEnd
        | none => hyperScanLoop cfg s fuel (i + 1)
      else hyperScanLoop cfg s fuel (i + 1)
    else none

/-- Crossing scan of the standalone merge test: some valid reading at or
below `end_gl` with index in `[lo, hi)`. -/
def hyperCrossBetween (cfg : HyperCfg) (s : Series) (hi : ℤ) : ℕ → ℤ → Bool
  | 0, _ => false
  | fuel + 1, i =>
    if i < hi then
      if ¬ s.validz i then hyperCrossBetween cfg s hi fuel (i + 1)
      else if s.gvalz i ≤ cfg.endGl then true
      else hyperCrossBetween cfg s hi fuel (i + 1)
    else false

/-- Phase-2 state shared by the hyperglycemic detectors. -/
structure HyperP2State where
  markers : List ℤ
  lastEnd : ℤ
deriving DecidableEq

/-- Phase-2 step of the standalone hyperglycemic detector: merge test
(a core starting after the previous recovery end is always new; otherwise
a mere crossing between the previous end and the core start makes it new),
then the recovery scan; an episode is emitted only on a confirmed
sustained recovery, marking its end at the recovery end index. -/
def hyperP2Step (cfg : HyperCfg) (s : Series) (st : HyperP2State) (core : ℤ × ℤ) :
    HyperP2State :=
  let isNew :=
    if st.lastEnd = -1 then true
    else if core.1 > st.lastEnd then true
    else hyperCrossBetween cfg s core.1 s.n (st.lastEnd + 1)
  if isNew then
    match hyperScanLoop cfg s s.n (core.2 + 1) with
    | some rEnd =>
      { markers := setIdxZ (setIdxZ st.markers core.1 2) rEnd (-1), lastEnd := rEnd }
    | none => st
  else st

/-- `calculate_hyper_events_for_id`: marker vector of the standalone
hyperglycemic detector. -/
def calculateHyperEventsForId (cfg : HyperCfg) (s : Series) : List ℤ :=
  ((hyperCores cfg s).foldl (hyperP2Step cfg s)
    { markers := List.replicate s.n 0, lastEnd := -1 }).markers

/-! ## Unified detector (detect_all_events.cpp):
`calculate_hyperglycemic_events` and `calculate_hypoglycemic_events`. -/

/-- Phase-1 step of the unified hyperglycemic scanner.  It differs from
the standalone scanner: extending a core sets `core_end = i - 1` and adds
the interval to the *next* reading. -/
def hyperAllP1Step (cfg : HyperCfg) (s : Series) (i : ℕ) (st : HyperP1State) : HyperP1State :=
  if ¬ s.valid i then st
  else if ¬ st.inCore then
    if s.gval i > cfg.startGl then
      { st with inCore := true
                coreStart := (i : ℤ)
                coreEnd := (i : ℤ)
                coreDur := 0
                coreCount := 1 }
    else st
  else
    if s.gval i > cfg.startGl then
      { st with coreEnd := (i : ℤ) - 1
                coreDur :=
                  if 0 < i then st.coreDur + (s.tv (i + 1) - s.tv i) / 60 else st.coreDur
                coreCount := st.coreCount + 1 }
    else
      let keep := st.coreDur + cfg.readingMinutes + epsMin ≥ cfg.durLength ∧
        (st.coreCount : ℤ) ≥ cfg.minReadings
      { cores := if keep then st.cores ++ [(st.coreStart, st.coreEnd)] else st.cores,
        inCore := false, coreStart := -1, coreEnd := -1, coreDur := 0, coreCount := 0 }

/-- Phase-1 loop of the unified hyperglycemic scanner: it visits only the
indices `0 .. n - 2` (`for (int i = 0; i < n_subset - 1; ++i)`). -/
def hyperAllP1Loop (cfg : HyperCfg) (s : Series) : ℕ → ℕ → HyperP1State → HyperP1State
  | 0, _, st => st
  | fuel + 1, i, st =>
    if i < s.n - 1 then hyperAllP1Loop cfg s fuel (i + 1) (hyperAllP1Step cfg s i st) else st

/-- Accepted core intervals of the unified hyperglycemic scanner,
including the still-open core evaluated at the end of the data. -/
def hyperAllCores (cfg : HyperCfg) (s : Series) : List (ℤ × ℤ) :=
  let st := hyperAllP1Loop cfg s s.n 0
    { cores := [], inCore := false, coreStart := -1, coreEnd := -1, coreDur := 0, coreCount := 0 }
  if st.inCore ∧ st.coreStart ≠ -1 then
    if st.coreDur + cfg.readingMinutes + epsMin ≥ cfg.durLength ∧
        (st.coreCount : ℤ) ≥ cfg.minReadings then
      st.cores ++ [(st.coreStart, st.coreEnd)]
    else st.cores
  else st.cores

/-- The recovery-side accumulation loop of the unified detector
(`for (k = i; k < n_subset - 1 && glucose_values[k] <= end_gl; k++)`):
accumulates `t[k+1] - t[k]` and tracks `last_k`.  An NA reading has cached
value `0.0 <= end_gl` and therefore continues the run. -/
def recRunAll (cfg : HyperCfg) (s : Series) : ℕ → ℤ → ℚ × ℤ → ℚ × ℤ
  | 0, _, acc => acc
  | fuel + 1, k, acc =>
    if k < (s.n : ℤ) - 1 ∧ s.gvalz k ≤ cfg.endGl then
      recRunAll cfg s fuel (k + 1) (acc.1 + (s.tvz (k + 1) - s.tvz k), k)
    else acc

/-- The between-events recovery scan of the unified detector: some valid
reading at or below `end_gl` in `[lo, hi)` whose recovery-side run spans
at least `end_length + reading_minutes` minutes
(`total_recovery_minutes = sustained_secs / 60 - reading_minutes >= end_length`). -/
def rfbLoop (cfg : HyperCfg) (s : Series) (hi : ℤ) : ℕ → ℤ → Bool
  | 0, _ => false
  | fuel + 1, i =>
    if i < hi then
      if ¬ s.validz i then rfbLoop cfg s hi fuel (i + 1)
      else if s.gvalz i ≤ cfg.endGl then
        if (recRunAll cfg s s.n i (0, 0)).1 / 60 - cfg.readingMinutes ≥ cfg.endLength then true
        else rfbLoop cfg s hi fuel (i + 1)
      else rfbLoop cfg s hi fuel (i + 1)
    else false

/-- `recovery_found_between` of the unified detector, scanning indices
`lo .. hi - 1`. -/
def recoveryFoundBetween (cfg : HyperCfg) (s : Series) (lo hi : ℤ) : Bool :=
  rfbLoop cfg s hi s.n lo

/-- The merge decision of the unified detector phase 2: a core is new when
no previous episode end is recorded, otherwise exactly when a qualifying
recovery is found strictly between the previous end and the core start. -/
def hyperAllIsNew (cfg : HyperCfg) (s : Series) (lastEnd : ℤ) (cs : ℤ) : Bool :=
  if lastEnd = -1 then true else recoveryFoundBetween cfg s (lastEnd + 1) cs

/-- After-core recovery scan of the unified full-event mode: find the
first valid reading at or below `end_gl` whose run satisfies
`sustained / 60 - reading_minutes >= end_length`; returns the candidate
index on success together with the final `last_k`. -/
def hyperAllScan (cfg : HyperCfg) (s : Series) : ℕ → ℤ → ℤ → Option ℤ × ℤ
  | 0, _, lastK => (none, lastK)
  | fuel + 1, i, lastK =>
    if i < (s.n : ℤ) then
      if ¬ s.validz i then hyperAllScan cfg s fuel (i + 1) lastK
      else if s.gvalz i ≤ cfg.endGl then
        let r := recRunAll cfg s s.n i (0, lastK)
        if r.1 / 60 - cfg.readingMinutes ≥ cfg.endLength then (some i, r.2)
        else hyperAllScan cfg s fuel (i + 1) r.2
      else hyperAllScan cfg s fuel (i + 1) lastK
    else (none, lastK)

/-- Phase-2 step of the unified detector in full-event mode
(`start_gl == end_gl`): merge test, recovery scan ending the episode just
before the recovery start, and the missing-gap fallback that ends the
episode at the core end when no recovery was found but a gap of more than
30 minutes follows `last_k`. -/
def hyperAllP2StepFull (cfg : HyperCfg) (s : Series) (st : HyperP2State) (core : ℤ × ℤ) :
    HyperP2State :=
  if hyperAllIsNew cfg s st.lastEnd core.1 then
    match hyperAllScan cfg s s.n (core.2 + 1) core.2 with
    | (some i, _) =>
      { markers := setIdxZ (setIdxZ st.markers core.1 2) (i - 1) (-1), lastEnd := i - 1 }
    | (none, lastK) =>
      if lastK + 1 < (s.n : ℤ) ∧ s.tvz (lastK + 1) - s.tvz lastK > 30 * 60 then
        { markers := setIdxZ (setIdxZ st.markers core.1 2) core.2 (-1), lastEnd := core.2 }
      else st
  else st

/-- Phase-2 step of the unified detector in core-only mode
(`start_gl != end_gl`): merge test only; a new core is emitted at its own
boundaries without any recovery scan. -/
def hyperAllP2StepCore (cfg : HyperCfg) (s : Series) (st : HyperP2State) (core : ℤ × ℤ) :
    HyperP2State :=
  if hyperAllIsNew cfg s st.lastEnd core.1 then
    { markers := setIdxZ (setIdxZ st.markers core.1 2) core.2 (-1), lastEnd := core.2 }
  else st

/-- `calculate_hyperglycemic_events` of detect_all_events.cpp: core-only
mode when `|start_gl - end_gl| >= 1e-9`, full-event mode otherwise. -/
def calculateHyperglycemicEventsAll (cfg : HyperCfg) (s : Series) : List ℤ :=
  let step := if |cfg.startGl - cfg.endGl| ≥ 1 / 1000000000
    then hyperAllP2StepCore cfg s else hyperAllP2StepFull cfg s
  ((hyperAllCores cfg s).foldl step
    { markers := List.replicate s.n 0, lastEnd := -1 }).markers

/-- The hypoglycemic recovery-run loop of the unified detector
(`for (k = i; k < n_subset - 1 && glucose_values[k] >= start_gl; k++)`):
accumulates `t[k+1] - t[k]` and tracks `last_k`.  An NA reading has cached
value `0.0 < start_gl` and therefore terminates the run.  The source
carries an inner break on `valid && gl < start_gl`, unreachable under the
loop guard, whose flag is returned unchanged here. -/
def hypoAllRecLoop (cfg : HypoCfg) (s : Series) : ℕ → ℤ → ℚ × ℤ → (ℚ × ℤ) × Bool
  | 0, _, acc => (acc, false)
  | fuel + 1, k, acc =>
    if k < (s.n : ℤ) - 1 ∧ s.gvalz k ≥ cfg.startGl then
      if s.validz k ∧ s.gvalz k < cfg.startGl then (acc, true)
      else hypoAllRecLoop cfg s fuel (k + 1) (acc.1 + (s.tvz (k + 1) - s.tvz k), k)
    else (acc, false)

/-- One iteration of the unified hypoglycemic detector: identical to the
standalone `hypoStep` except for the recovery test, which uses
`total_recovery_minutes = sustained_secs / 60 - reading_minutes` and the
`last_k`-based no-reading-within-window check. -/
def hypoAllStep (cfg : HypoCfg) (s : Series) (i : ℕ) (st : HypoState) : HypoState :=
  if 0 < i ∧ s.tv i - s.tv (i - 1) > (cfg.endLength + epsMin) * 60 then
    if st.inEvent ∧ st.eventStart ≠ -1 then
      { markers := if hypoCoreAccept cfg s st then hypoEmit st ((i : ℤ) - 1) else st.markers,
        inEvent := false, eventStart := -1, hypoCount := st.hypoCount, lastHypo := -1 }
    else st
  else if ¬ s.valid i then st
  else if ¬ st.inEvent then
    if s.gval i < cfg.startGl then
      { st with inEvent := true, eventStart := (i : ℤ), hypoCount := 1 }
    else st
  else
    if s.gval i < cfg.startGl then
      { st with hypoCount := st.hypoCount + 1, lastHypo := (i : ℤ) }
    else
      if (st.hypoCount : ℤ) < cfg.minReadings then st
      else
        if hypoCoreDuration cfg s st + epsMin ≥ cfg.durLength then
          let res := hypoAllRecLoop cfg s s.n (i : ℤ) (0, (i : ℤ))
          let lastK := res.1.2
          let totalRec := res.1.1 / 60 - cfg.readingMinutes
          let noReading :=
            ¬ (lastK + 1 < (s.n : ℤ) ∧ s.tvz (lastK + 1) - s.tv i ≤ cfg.endLength * 60)
          if ¬ res.2 ∧ (totalRec ≥ cfg.endLength ∨ noReading) then
            { markers := hypoEmit st ((i : ℤ) - 1), inEvent := false,
              eventStart := -1, hypoCount := 0, lastHypo := -1 }
          else st
        else st

/-- Main loop of the unified hypoglycemic detector. -/
def hypoAllLoop (cfg : HypoCfg) (s : Series) : ℕ → ℕ → HypoState → HypoState
  | 0, _, st => st
  | fuel + 1, i, st =>
    if i < s.n then hypoAllLoop cfg s fuel (i + 1) (hypoAllStep cfg s i st) else st

/-- `calculate_hypoglycemic_events` of detect_all_events.cpp: same gap
handling and end-of-data finalization as the standalone detector. -/
def calculateHypoglycemicEventsAll (cfg : HypoCfg) (s : Series) : List ℤ :=
  hypoFinalize cfg s
    (hypoAllLoop cfg s s.n 0
      { markers := List.replicate s.n 0, inEvent := false,
        eventStart := -1, hypoCount := 0, lastHypo := -1 })

/-! ## Episode statistics and the severity-exclusive resolver
(`process_events_for_type_level` and `calculate_lv1_excl_metrics` in
detect_all_events.cpp). -/

/-- One episode entry of the per-(type, level, id) statistics collected by
`process_events_for_type_level` (times in seconds, durations in minutes,
indices 1-based). -/
structure EpStat where
  time : ℚ
  duration : ℚ
  avgGl : ℚ
  startIdx : ℤ
  endIdx : ℤ
deriving DecidableEq

/-- Valid-glucose sum and count over the inclusive index range
`[j, hi]`. -/
def glAvgAux (s : Series) : ℕ → ℤ → ℤ → ℚ → ℕ → ℚ × ℕ
  | 0, _, _, sum, cnt => (sum, cnt)
  | fuel + 1, j, hi, sum, cnt =>
    if j ≤ hi then
      if s.validz j then glAvgAux s fuel (j + 1) hi (sum + s.gvalz j) (cnt + 1)
      else glAvgAux s fuel (j + 1) hi sum cnt
    else (sum, cnt)

/-- Average of the valid glucose readings in `[lo, hi]` (`0` when there is
none). -/
def glAvg (s : Series) (lo hi : ℤ) : ℚ :=
  let r := glAvgAux s s.n lo hi 0 0
  if 0 < r.2 then r.1 / (r.2 : ℚ) else 0

/-- The episode statistic recorded by `process_events_for_type_level` for
a marker pair `(cur, i)`: metrics are taken over `[cur, end]` with
`end = i - 1` when `i > cur` (just before the recovery start). -/
def mkEpStat (s : Series) (rm : ℚ) (cur : ℤ) (i : ℕ) : EpStat :=
  let endM : ℤ := if (i : ℤ) > cur then (i : ℤ) - 1 else (i : ℤ)
  { time := s.tvz cur
    duration := if endM > cur then (s.tvz endM - s.tvz cur) / 60 + rm else 0
    avgGl := glAvg s cur endM
    startIdx := cur + 1
    endIdx := endM + 1 }

/-- Walk of the marker vector performed by `process_events_for_type_level`,
pairing `2` markers with the following `-1` marker. -/
def processStatsAux (s : Series) (rm : ℚ) : List ℤ → ℕ → ℤ → List EpStat
  | [], _, _ => []
  | v :: rest, i, cur =>
    if v = 2 then processStatsAux s rm rest (i + 1) (i : ℤ)
    else if v = -1 ∧ cur ≠ -1 then
      mkEpStat s rm cur i :: processStatsAux s rm rest (i + 1) (-1)
    else processStatsAux s rm rest (i + 1) cur

/-- Episode statistics of a marker vector
(`process_events_for_type_level`). -/
def processStats (s : Series) (rm : ℚ) (m : List ℤ) : List EpStat :=
  processStatsAux s rm m 0 (-1)

/-- Interval-overlap test of `calculate_lv1_excl_metrics`: episode
intervals are `[time, time + duration * 60]` and two episodes overlap
unless one ends before the other starts. -/
def epOverlap (e1 e2 : EpStat) : Bool :=
  ¬ (e1.time + e1.duration * 60 ≤ e2.time ∨ e2.time + e2.duration * 60 ≤ e1.time)

/-- `calculate_lv1_excl_metrics` (overlap mode): no lv1 episodes gives the
empty exclusive set, no lv2 episodes keeps all lv1 episodes, and otherwise
an lv1 episode is kept exactly when it overlaps no lv2 episode. -/
def lv1ExclStats (lv1 lv2 : List EpStat) : List EpStat :=
  if lv1 = [] then []
  else if lv2 = [] then lv1
  else lv1.filter (fun e1 => lv2.all (fun e2 => ¬ epOverlap e1 e2))

/-- Time interval covered by an episode statistic. -/
def epInterval (e : EpStat) : ℚ × ℚ := (e.time, e.time + e.duration * 60)

/-! ## Per-subject statistics aggregation
(`process_events_with_total_optimized` / `create_events_total_df` in
detect_hypoglycemic_events.cpp). -/

/-- `total_days` of a subject: `(t[len-1] - t[0]) / 86400`, `0` for an
empty series (the initial value of the field). -/
def totalDays (tl : List ℚ) : ℚ :=
  if 0 < tl.length then (tl.getD (tl.length - 1) 0 - tl.getD 0 0) / (24 * 60 * 60) else 0

/-- C++ `round`: half away from zero. -/
def roundQ (x : ℚ) : ℤ := if x < 0 then -⌊-x + 1 / 2⌋ else ⌊x + 1 / 2⌋

/-- The `avg_ep_per_day` cell of the summary table: `count / total_days`
when the observation span is positive (`0.0` otherwise), rounded to two
decimals with the source's special handling of exact zero. -/
def roundedEpPerDay (count : ℕ) (td : ℚ) : ℚ :=
  let epd : ℚ := if 0 < td then (count : ℚ) / td else 0
  if epd = 0 then 0 else (roundQ (epd * 100) : ℚ) / 100

/-! ## Subject grouping (`group_by_id` in id_based_calculator.cpp).
`id_indices` is a `std::map` keyed by the subject id string, so iteration
order over subjects is the sorted key order; this is modelled by inserting
each new key into a sorted key list. -/

/-- Key insertion of `std::map::operator[]`: a new key enters at its
sorted position, an existing key changes nothing. -/
def mapInsertKey {α : Type} [LinearOrder α] (ks : List α) (k : α) : List α :=
  if k ∈ ks then ks else ks.orderedInsert (· ≤ ·) k

/-- The subject iteration order produced by `group_by_id` and every
output loop over `id_indices` / `std::map` / `std::set`: sorted key
order. -/
def groupKeys {α : Type} [LinearOrder α] (ids : List α) : List α :=
  ids.foldl mapInsertKey []

/-- First-seen subject order (the spec's required output order): each id
is appended at its first occurrence. -/
def firstSeenOrder {α : Type} [DecidableEq α] (ids : List α) : List α :=
  ids.foldl (fun acc k => if k ∈ acc then acc else acc ++ [k]) []

/-! ## Detailed episode rows of the standalone hypoglycemic detector
(`process_events_with_total_optimized` and `calculate_episode_metrics`
in detect_hypoglycemic_events.cpp). -/

/-- Integer-list access through an integer index (`0` out of range). -/
def getZZ : List ℤ → ℤ → ℤ
  | [], _ => 0
  | x :: xs, i => if i = 0 then x else if i < 0 then 0 else getZZ xs (i - 1)

/-- One row of the detailed episodes table. -/
structure EventRow where
  startTime : ℚ
  startGlV : ℚ
  endTime : ℚ
  endGlV : ℚ
  startIdx : ℤ
  endIdx : ℤ
  durationMin : ℚ
  below54 : ℚ
  avgGl : ℚ
deriving DecidableEq

/-- Accumulator of `calculate_episode_metrics`: over `[j, hi]`, sum and
count the valid readings and add the per-reading interval to `below54`
when the value is under 54 (interval to the next reading, with the
last-point fallbacks of the source). -/
def metricsAux (s : Series) (lo hi : ℤ) : ℕ → ℤ → ℚ → ℚ → ℕ → ℚ × ℚ × ℕ
  | 0, _, below, sum, cnt => (below, sum, cnt)
  | fuel + 1, j, below, sum, cnt =>
    if j ≤ hi then
      if s.validz j then
        let td : ℚ :=
          if j < hi then (s.tvz (j + 1) - s.tvz j) / 60
          else if j + 1 < (s.t.length : ℤ) then (s.tvz (j + 1) - s.tvz j) / 60
          else if j > lo then (s.tvz j - s.tvz (j - 1)) / 60
          else 0
        let below1 := if s.gvalz j < 54 then below + td else below
        metricsAux s lo hi fuel (j + 1) below1 (sum + s.gvalz j) (cnt + 1)
      else metricsAux s lo hi fuel (j + 1) below sum cnt
    else (below, sum, cnt)

/-- `calculate_episode_metrics`: `(duration_below_54, average_glucose)`
over the inclusive range `[lo, hi]`. -/
def episodeMetrics (s : Series) (lo hi : ℤ) : ℚ × ℚ :=
  let r := metricsAux s lo hi s.n lo 0 0 0
  (r.1, if 0 < r.2.2 then r.2.1 / (r.2.2 : ℚ) else 0)

/-- The detailed row built for a marker pair `(cur, i)`: metrics and
duration run to the `-1` marker itself (`end_idx_for_metrics = i`), and
the stored indices are the subject's original row indices plus one. -/
def mkEventRow (cfg : HypoCfg) (s : Series) (indices : List ℤ) (cur : ℤ) (i : ℕ) : EventRow :=
  let mets := episodeMetrics s cur (i : ℤ)
  { startTime := s.tvz cur
    startGlV := s.gvalz cur
    endTime := s.tvz (i : ℤ)
    endGlV := s.gvalz (i : ℤ)
    startIdx := getZZ indices cur + 1
    endIdx := getZZ indices (i : ℤ) + 1
    durationMin := if (i : ℤ) > cur then (s.tvz (i : ℤ) - s.tvz cur) / 60 + cfg.readingMinutes
      else 0
    below54 := mets.1
    avgGl := mets.2 }

/-- Row-collection walk of `process_events_with_total_optimized`,
including its bounds check against the index vector. -/
def processRowsAux (cfg : HypoCfg) (s : Series) (indices : List ℤ) :
    List ℤ → ℕ → ℤ → List EventRow
  | [], _, _ => []
  | v :: rest, i, cur =>
    if v = 2 then processRowsAux cfg s indices rest (i + 1) (i : ℤ)
    else if v = -1 ∧ cur ≠ -1 then
      if 0 ≤ cur ∧ cur < (indices.length : ℤ) ∧ (i : ℤ) < (indices.length : ℤ) then
        mkEventRow cfg s indices cur i :: processRowsAux cfg s indices rest (i + 1) (-1)
      else processRowsAux cfg s indices rest (i + 1) (-1)
    else processRowsAux cfg s indices rest (i + 1) cur

/-- Detailed episode rows of a marker vector. -/
def processEventsRows (cfg : HypoCfg) (s : Series) (indices : List ℤ) (m : List ℤ) :
    List EventRow :=
  processRowsAux cfg s indices m 0 (-1)

/-! ## Spec-side comparison definitions (used only to state refinement
claims against the embedded code). -/

/-- Spec-side qualifying recovery between two excursions: a reading
strictly between them crossing the recovery threshold whose recovery-side
run is sustained for at least the minimum recovery duration
(`min_recovery_duration_minutes = endLength`, with no extra
`reading_minutes` term). -/
def specQualifyingRecoveryBetween (cfg : HyperCfg) (s : Series) (lo hi : ℤ) : Prop :=
  ∃ j : ℤ, lo < j ∧ j < hi ∧ s.validz j = true ∧ s.gvalz j ≤ cfg.endGl ∧
    (recRunAll cfg s s.n j (0, 0)).1 / 60 ≥ cfg.endLength

/-- Spec-side recovery-run accumulation in which an NA reading is skipped
by the threshold test (it neither breaks nor satisfies the run) while its
timestamp still contributes elapsed time. -/
def specRecRunSkipNA (cfg : HypoCfg) (s : Series) : ℕ → ℤ → ℚ → ℚ
  | 0, _, sus => sus
  | fuel + 1, k, sus =>
    if k < (s.n : ℤ) - 1 ∧ (s.validz k = false ∨ s.gvalz k ≥ cfg.startGl) then
      specRecRunSkipNA cfg s fuel (k + 1) (sus + (s.tvz (k + 1) - s.tvz k))
    else sus

/-! ## Concrete inputs used by the claim theorems. -/

/-- Hypoglycemic level-1 configuration: entry below 70, 15-minute core,
15-minute recovery, 5-minute sampling, `min_readings = 3`. -/
def hypoCfg15 : HypoCfg :=
  { minReadings := 3, durLength := 15, endLength := 15, startGl := 70, readingMinutes := 5 }

/-- Three sub-70 readings followed by a 50-minute gap to a recovered
reading. -/
def seriesGap : Series :=
  { t := [0, 300, 600, 3600], g := [some 60, some 60, some 60, some 100] }

/-- Three sub-70 readings and the series ends while still in core. -/
def seriesEndCore : Series :=
  { t := [0, 300, 600], g := [some 60, some 60, some 60] }

/-- The end-to-end example series of the spec: values
`[80, 75, 65, 60, 55, 60, 68, 72, 75]` at five-minute cadence. -/
def seriesSpecExample : Series :=
  { t := [0, 300, 600, 900, 1200, 1500, 1800, 2100, 2400],
    g := [some 80, some 75, some 65, some 60, some 55, some 60, some 68, some 72, some 75] }

/-- Level-1-exclusive configuration (181-250 band, 15-minute core and
recovery). -/
def lvl1Cfg : Lvl1Cfg :=
  { durLength := 15, endLength := 15, glMin := 180, glMax := 250, endGl := 180 }

/-- Two in-band readings spanning 15 minutes, then a sustained recovery:
only two qualifying readings, below the 75%-density requirement of three
for five-minute sampling. -/
def seriesL1 : Series :=
  { t := [0, 900, 1200, 2100, 2400],
    g := [some 200, some 200, some 100, some 100, some 100] }

/-- Hyperglycemic level-1 configuration with 15-minute sampling
(`min_readings = 1`). -/
def hyperCfgRm15 : HyperCfg :=
  { minReadings := 1, durLength := 15, endLength := 15, startGl := 180, endGl := 180,
    readingMinutes := 15 }

/-- Two single-reading hyperglycemic excursions separated by one recovered
reading spanning 15 minutes, with a sustained tail. -/
def seriesTwoExc : Series :=
  { t := [0, 900, 1800, 2700, 3600, 4500],
    g := [some 250, some 100, some 250, some 100, some 100, some 100] }

/-- Hyperglycemic level-2 configuration with 15-minute sampling. -/
def hyperCfgLv2Rm15 : HyperCfg :=
  { minReadings := 1, durLength := 15, endLength := 15, startGl := 250, endGl := 250,
    readingMinutes := 15 }

/-- A level-2 excursion nested inside a longer level-1 excursion. -/
def seriesNested : Series :=
  { t := [0, 900, 1800, 2700, 3600, 4500, 5400],
    g := [some 300, some 300, some 300, some 200, some 100, some 100, some 100] }

/-- Hypoglycemic core, recovery attempt interrupted by an NA reading,
then a final sub-70 reading. -/
def seriesNA : Series :=
  { t := [0, 300, 600, 900, 1200, 1500, 1800, 2100],
    g := [some 60, some 60, some 60, some 100, none, some 100, some 100, some 60] }

/-- The same series with the NA reading replaced by a recovered value. -/
def seriesNA2 : Series :=
  { t := [0, 300, 600, 900, 1200, 1500, 1800, 2100],
    g := [some 60, some 60, some 60, some 100, some 100, some 100, some 100, some 60] }

/-- All readings hyperglycemic: no reading on the recovery side exists. -/
def seriesHyperEnd : Series :=
  { t := [0, 300, 600], g := [some 250, some 250, some 250] }

/-- Hyperglycemic level-1 configuration with 5-minute sampling. -/
def hyperCfg180 : HyperCfg :=
  { minReadings := 3, durLength := 15, endLength := 15, startGl := 180, endGl := 180,
    readingMinutes := 5 }

/-- Helper recording the density threshold for five-minute sampling and a
fifteen-minute core: `ceil(((15 - 0.1) / 5) / 4 * 3) = 3`. -/
theorem calcMinReadings_5_15 : calcMinReadings 5 15 = 3 := by
  rw [calcMinReadings]
  rw [show (max 0 ((15 : ℚ) - 1 / 10) / 5) / 4 * 3 = 447 / 200 by norm_num]
  rw [Int.ceil_eq_iff]
  norm_num

/-! ## Claim C1 -/

/-- C1, counterexample.  The claim requires every configuration to accept
a closing core interval only when the qualifying-reading count reaches
`ceil(((min_core - jitter) / sampling) / 4 * 3)`.  The level-1-exclusive
detector (`calculate_level1_hyper_events_for_id`) applies no reading-count
test at all: on `seriesL1` it accepts an episode over indices `[0, 2]`
whose core contains only 2 qualifying in-band readings, below the required
`ceil(((15 - 0.1) / 5) / 4 * 3) = 3`. -/
theorem C1_counterexample :
    extractEpisodes (calculateLevel1HyperEventsForId lvl1Cfg seriesL1) = [(0, 2)] ∧
    inRangeCount lvl1Cfg seriesL1 0 2 = 2 ∧
    (2 : ℤ) < ⌈((((15 : ℚ) - 1 / 10) / 5) / 4) * 3⌉ := by
  refine ⟨?_, ?_, ?_⟩
  · norm_num [calculateLevel1HyperEventsForId, lvl1Loop, lvl1Step, lvl1RecLoop,
      Series.n, Series.tv, Series.tvz, Series.valid, Series.gval, seriesL1, lvl1Cfg, epsMin,
      setIdx, setIdxZ, getQZ, List.replicate, extractEpisodes, extractEpisodesAux]
  · norm_num [inRangeCount, seriesL1, lvl1Cfg, Series.valid, Series.gval, List.range_succ,
      List.countP, List.countP.go]
  · rw [show ((((15 : ℚ) - 1 / 10) / 5) / 4) * 3 = 447 / 200 by norm_num]
    have hceil : ⌈(447 / 200 : ℚ)⌉ = 3 := by
      rw [Int.ceil_eq_iff]
      norm_num
    rw [hceil]
    norm_num

/-- C1, amended.  In the hypoglycemic and hyperglycemic detectors the core
acceptance test applied when a core interval is closed by a large gap or
by the end of the series is exactly the claim's test: the accumulated
core span plus one nominal sampling interval must reach
`min_core_duration - jitter_tolerance` (jitter 0.1 min) and the
qualifying-reading count must reach
`ceil(((min_core_duration - jitter) / sampling) / 4 * 3)`; the
level-1-exclusive detector is the exception recorded in the
counterexample.  (When a reading merely stops qualifying, this test gates
the recovery scan instead of accepting immediately.) -/
theorem C1_core_acceptance (cfg : HypoCfg) (s : Series) (st : HypoState)
    (h1 : cfg.minReadings = calcMinReadings cfg.readingMinutes cfg.durLength)
    (h2 : (1 : ℚ) / 10 ≤ cfg.durLength)
    (h3 : 0 ≤ st.eventStart) (h4 : st.eventStart ≤ st.lastHypo) :
    hypoCoreAccept cfg s st = true ↔
      (s.tvz st.lastHypo - s.tvz st.eventStart) / 60 + cfg.readingMinutes ≥
        cfg.durLength - 1 / 10 ∧
      (st.hypoCount : ℤ) ≥ ⌈((cfg.durLength - 1 / 10) / cfg.readingMinutes) / 4 * 3⌉ := by
  have hmax : max 0 (cfg.durLength - 1 / 10) = cfg.durLength - 1 / 10 :=
    max_eq_right (by linarith)
  rw [hypoCoreAccept, hypoCoreDuration, if_pos h4, Bool.and_eq_true,
    decide_eq_true_iff, decide_eq_true_iff, h1, calcMinReadings, hmax, epsMin]
  constructor
  · rintro ⟨ha, hb⟩
    exact ⟨by linarith, hb⟩
  · rintro ⟨ha, hb⟩
    exact ⟨by linarith, hb⟩

/-- C1, witness state: in core from index 0 with last hypoglycemic reading
at index 2 and three qualifying readings. -/
def witStC1 : HypoState :=
  { markers := [0, 0, 0], inEvent := true, eventStart := 0, hypoCount := 3, lastHypo := 2 }

/-- C1, witness: the acceptance test holds on `seriesEndCore` with the
level-1 hypoglycemic configuration. -/
theorem C1_core_acceptance_witness :
    hypoCoreAccept hypoCfg15 seriesEndCore witStC1 = true :=
  (C1_core_acceptance hypoCfg15 seriesEndCore witStC1
    (by rw [show hypoCfg15.readingMinutes = 5 from rfl,
        show hypoCfg15.durLength = 15 from rfl, calcMinReadings_5_15]; rfl)
    (by norm_num [hypoCfg15])
    (by norm_num [witStC1])
    (by norm_num [witStC1])).mpr
    (by
      constructor
      · norm_num [seriesEndCore, witStC1, hypoCfg15, Series.tvz, getQZ]
      · rw [show hypoCfg15.durLength = 15 from rfl, show hypoCfg15.readingMinutes = 5 from rfl,
          show witStC1.hypoCount = 3 from rfl]
        rw [show (((15 : ℚ) - 1 / 10) / 5) / 4 * 3 = 447 / 200 by norm_num]
        have hceil : ⌈(447 / 200 : ℚ)⌉ = 3 := by
          rw [Int.ceil_eq_iff]
          norm_num
        rw [hceil]
        norm_num)

/-! ## Claim C2 -/

/-- C2, counterexample.  The claim says an in-progress core terminated by
a large gap is reset without being finalized, and that no episode is ever
emitted purely from gap termination.  On `seriesGap` (three sub-70
readings, then a 50-minute gap) the hypoglycemic detector emits the
episode `[0, 2]` in the gap branch: the gap both terminates and finalizes
the event. -/
theorem C2_counterexample :
    extractEpisodes (calculateHypoEventsForId hypoCfg15 seriesGap) = [(0, 2)] ∧
    ([((0 : ℤ), (2 : ℕ))] : List (ℤ × ℕ)) ≠ [] := by
  refine ⟨?_, by simp⟩
  norm_num [calculateHypoEventsForId, hypoLoop, hypoStep, hypoRecLoop, hypoFinalize,
    hypoCoreAccept, hypoCoreDuration, hypoEmit, Series.n, Series.tv, Series.tvz,
    Series.valid, Series.gval, seriesGap, hypoCfg15, epsMin, setIdx, setIdxZ, getQZ,
    List.replicate, extractEpisodes, extractEpisodesAux]

/-- C2, amended.  On a large gap the in-progress state is always reset
(the detector leaves the event), and the markers are left unchanged — no
episode is emitted — exactly when the accumulated core fails the
acceptance test `hypoCoreAccept`; a core that already satisfies it is
finalized at the last qualifying reading (see the counterexample). -/
theorem C2_gap_reset (cfg : HypoCfg) (s : Series) (i : ℕ) (st : HypoState)
    (hgap : 0 < i ∧ s.tv i - s.tv (i - 1) > (cfg.endLength + epsMin) * 60)
    (hin : st.inEvent = true) (hes : st.eventStart ≠ -1)
    (hacc : hypoCoreAccept cfg s st = false) :
    (hypoStep cfg s i st).markers = st.markers ∧
    (hypoStep cfg s i st).inEvent = false ∧
    (hypoStep cfg s i st).eventStart = -1 := by
  rw [hypoStep, if_pos hgap, if_pos ⟨hin, hes⟩]
  simp [hacc]

/-- C2, witness state: in core from index 0 with only two qualifying
readings (10 accumulated minutes), below the 15-minute requirement. -/
def witStC2 : HypoState :=
  { markers := [0, 0, 0, 0], inEvent := true, eventStart := 0, hypoCount := 2, lastHypo := 1 }

/-- C2, witness: at the gap index 3 of `seriesGap` the below-threshold
core is cancelled without any marker write. -/
theorem C2_gap_reset_witness :
    (hypoStep hypoCfg15 seriesGap 3 witStC2).markers = witStC2.markers ∧
    (hypoStep hypoCfg15 seriesGap 3 witStC2).inEvent = false ∧
    (hypoStep hypoCfg15 seriesGap 3 witStC2).eventStart = -1 :=
  C2_gap_reset hypoCfg15 seriesGap 3 witStC2
    (by norm_num [seriesGap, hypoCfg15, Series.tv, epsMin])
    (by norm_num [witStC2]) (by norm_num [witStC2])
    (by norm_num [hypoCoreAccept, hypoCoreDuration, witStC2, seriesGap, hypoCfg15,
      Series.tvz, getQZ, epsMin])

/-! ## Claim C3 -/

/-- C3, counterexample.  The claim says a core interval still in progress
when the series ends, with no confirmed recovery, yields no episode.  On
`seriesEndCore` (three sub-70 readings, series ends in core, no recovery
anywhere) the hypoglycemic detector emits the episode `[0, 2]` from its
end-of-data block. -/
theorem C3_counterexample :
    extractEpisodes (calculateHypoEventsForId hypoCfg15 seriesEndCore) = [(0, 2)] ∧
    ([((0 : ℤ), (2 : ℕ))] : List (ℤ × ℕ)) ≠ [] := by
  refine ⟨?_, by simp⟩
  norm_num [calculateHypoEventsForId, hypoLoop, hypoStep, hypoRecLoop, hypoFinalize,
    hypoCoreAccept, hypoCoreDuration, hypoEmit, Series.n, Series.tv, Series.tvz,
    Series.valid, Series.gval, seriesEndCore, hypoCfg15, epsMin, setIdx, setIdxZ, getQZ,
    List.replicate, extractEpisodes, extractEpisodesAux]

/-- Helper: dropping the first index from a bounded integer universal
when the property holds at that index. -/
theorem forall_shift_of_holds {P : ℤ → Prop} (i hi : ℤ) (hPi : P i) :
    (∀ j : ℤ, i + 1 ≤ j → j < hi → P j) ↔ ∀ j : ℤ, i ≤ j → j < hi → P j := by
  constructor
  · intro h j h1 h2
    rcases eq_or_lt_of_le h1 with heq | hlt
    · exact heq ▸ hPi
    · exact h j (by omega) h2
  · intro h j h1 h2
    exact h j (by omega) h2

/-- Helper: the recovery scan of the standalone hyperglycemic detector is
a first-success search; with enough fuel it fails exactly when no index in
`[i, n)` holds a valid reading at or below `end_gl` whose sustain loop
confirms a sustained recovery. -/
theorem hyperScanLoop_none_iff (cfg : HyperCfg) (s : Series) :
    ∀ (fuel : ℕ) (i : ℤ), (s.n : ℤ) ≤ i + (fuel : ℤ) →
      (hyperScanLoop cfg s fuel i = none ↔
        ∀ j : ℤ, i ≤ j → j < (s.n : ℤ) → s.validz j = true →
          s.gvalz j ≤ cfg.endGl → hyperSustainLoop cfg s s.n j 0 = none) := by
  intro fuel
  induction fuel with
  | zero =>
    intro i hfu
    simp only [Nat.cast_zero, add_zero] at hfu
    constructor
    · intro _ j h1 h2
      exfalso
      omega
    · intro _
      rfl
  | succ fuel ih =>
    intro i hfu
    rw [hyperScanLoop]
    by_cases hin : i < (s.n : ℤ)
    · rw [if_pos hin]
      have hfu1 : (s.n : ℤ) ≤ (i + 1) + (fuel : ℤ) := by push_cast at hfu ⊢; omega
      by_cases hv : s.validz i = true
      · rw [if_neg (by simp [hv])]
        by_cases hg : s.gvalz i ≤ cfg.endGl
        · rw [if_pos hg]
          cases hsus : hyperSustainLoop cfg s s.n i 0 with
          | none =>
            show hyperScanLoop cfg s fuel (i + 1) = none ↔
              ∀ j : ℤ, i ≤ j → j < (s.n : ℤ) → s.validz j = true →
                s.gvalz j ≤ cfg.endGl → hyperSustainLoop cfg s s.n j 0 = none
            rw [ih (i + 1) hfu1]
            exact forall_shift_of_holds i (s.n : ℤ) (fun _ _ => hsus)
          | some r =>
            show some r = none ↔
              ∀ j : ℤ, i ≤ j → j < (s.n : ℤ) → s.validz j = true →
                s.gvalz j ≤ cfg.endGl → hyperSustainLoop cfg s s.n j 0 = none
            constructor
            · intro hfalse
              exact absurd hfalse (by simp)
            · intro h
              exact absurd (h i le_rfl hin hv hg) (by simp [hsus])
        · rw [if_neg hg, ih (i + 1) hfu1]
          exact forall_shift_of_holds i (s.n : ℤ) (fun _ hg2 => absurd hg2 hg)
      · rw [if_pos (by simpa using hv), ih (i + 1) hfu1]
        exact forall_shift_of_holds i (s.n : ℤ) (fun hv2 _ => absurd hv2 hv)
    · rw [if_neg hin]
      constructor
      · intro _ j h1 h2
        exfalso
        omega
      · intro _
        rfl

/-- C3, amended: end-of-data handling.  Hyperglycemic half: for any core
interval after whose end no reading confirms a sustained recovery (no
valid reading at or below `end_gl` whose sustain loop succeeds — in
particular a core still in progress when the series ends, whatever
recovery-side readings or unsustained dips occurred elsewhere), the
phase-2 step of the standalone hyperglycemic detector leaves its state
untouched, and when that core is the final accepted core the whole
detector's output equals the output computed from the preceding cores
alone: no episode is emitted for that interval.  Hypoglycemic half: the
end-of-data block finalizes an in-progress event exactly when the core
acceptance test holds, and the finalization writes the start marker at
`event_start` and the end marker at the last qualifying reading when one
was recorded. -/
theorem C3_end_of_data_close (cfgHyper : HyperCfg) (cfgHypo : HypoCfg) (s : Series)
    (core : ℤ × ℤ) (hc : -1 ≤ core.2)
    (hnorec : ∀ j : ℤ, core.2 + 1 ≤ j → j < (s.n : ℤ) → s.validz j = true →
      s.gvalz j ≤ cfgHyper.endGl → hyperSustainLoop cfgHyper s s.n j 0 = none) :
    (∀ st : HyperP2State, hyperP2Step cfgHyper s st core = st) ∧
    (∀ cores : List (ℤ × ℤ), hyperCores cfgHyper s = cores ++ [core] →
      calculateHyperEventsForId cfgHyper s =
        (cores.foldl (hyperP2Step cfgHyper s)
          { markers := List.replicate s.n 0, lastEnd := -1 }).markers) ∧
    (∀ hst : HypoState, hst.inEvent = true → hst.eventStart ≠ -1 →
      (hypoCoreAccept cfgHypo s hst = true →
        hypoFinalize cfgHypo s hst = hypoEmit hst ((s.n : ℤ) - 1)) ∧
      (hypoCoreAccept cfgHypo s hst = false →
        hypoFinalize cfgHypo s hst = hst.markers)) ∧
    (∀ hst : HypoState, hst.lastHypo ≥ 0 →
      hypoEmit hst ((s.n : ℤ) - 1) =
        setIdxZ (setIdxZ hst.markers hst.eventStart 2) hst.lastHypo (-1)) := by
  have hscan : hyperScanLoop cfgHyper s s.n (core.2 + 1) = none :=
    (hyperScanLoop_none_iff cfgHyper s s.n (core.2 + 1) (by omega)).mpr hnorec
  have hstep : ∀ st : HyperP2State, hyperP2Step cfgHyper s st core = st := by
    intro st
    rw [hyperP2Step, hscan]
    simp
  refine ⟨hstep, ?_, ?_, ?_⟩
  · intro cores hcs
    rw [calculateHyperEventsForId, hcs, List.foldl_append, List.foldl_cons, List.foldl_nil,
      hstep]
  · intro hst hin hes
    constructor
    · intro hacc
      rw [hypoFinalize, if_pos ⟨hin, hes⟩, if_pos hacc]
    · intro hacc
      rw [hypoFinalize, if_pos ⟨hin, hes⟩, if_neg (by simp [hacc])]
  · intro hst hlh
    simp only [hypoEmit]
    rw [if_pos hlh]

/-- A hyperglycemic core followed by a one-reading unsustained dip to the
recovery side and hyperglycemic readings running to the end of the
data. -/
def seriesC3Rec : Series :=
  { t := [0, 300, 600, 900, 1200],
    g := [some 250, some 250, some 100, some 250, some 250] }

/-- C3, witness: on `seriesC3Rec` the core `(0, 1)` is followed by a
recovery-side reading (100 at index 2) whose recovery is not sustained, so
the no-confirmed-recovery hypothesis holds non-vacuously and the theorem
applies. -/
theorem C3_end_of_data_close_witness :
    ((-1 : ℤ) ≤ ((0 : ℤ), (1 : ℤ)).2) ∧
    (∀ j : ℤ, ((0 : ℤ), (1 : ℤ)).2 + 1 ≤ j → j < (seriesC3Rec.n : ℤ) →
      seriesC3Rec.validz j = true → seriesC3Rec.gvalz j ≤ hyperCfg180.endGl →
      hyperSustainLoop hyperCfg180 seriesC3Rec seriesC3Rec.n j 0 = none) ∧
    ((∀ st : HyperP2State, hyperP2Step hyperCfg180 seriesC3Rec st ((0 : ℤ), (1 : ℤ)) = st) ∧
      (∀ cores : List (ℤ × ℤ),
        hyperCores hyperCfg180 seriesC3Rec = cores ++ [((0 : ℤ), (1 : ℤ))] →
        calculateHyperEventsForId hyperCfg180 seriesC3Rec =
          (cores.foldl (hyperP2Step hyperCfg180 seriesC3Rec)
            { markers := List.replicate seriesC3Rec.n 0, lastEnd := -1 }).markers) ∧
      (∀ hst : HypoState, hst.inEvent = true → hst.eventStart ≠ -1 →
        (hypoCoreAccept hypoCfg15 seriesC3Rec hst = true →
          hypoFinalize hypoCfg15 seriesC3Rec hst =
            hypoEmit hst ((seriesC3Rec.n : ℤ) - 1)) ∧
        (hypoCoreAccept hypoCfg15 seriesC3Rec hst = false →
          hypoFinalize hypoCfg15 seriesC3Rec hst = hst.markers)) ∧
      (∀ hst : HypoState, hst.lastHypo ≥ 0 →
        hypoEmit hst ((seriesC3Rec.n : ℤ) - 1) =
          setIdxZ (setIdxZ hst.markers hst.eventStart 2) hst.lastHypo (-1))) := by
  have hno : ∀ j : ℤ, ((0 : ℤ), (1 : ℤ)).2 + 1 ≤ j → j < (seriesC3Rec.n : ℤ) →
      seriesC3Rec.validz j = true → seriesC3Rec.gvalz j ≤ hyperCfg180.endGl →
      hyperSustainLoop hyperCfg180 seriesC3Rec seriesC3Rec.n j 0 = none := by
    intro j h1 h2 hv hle
    have h5 : (seriesC3Rec.n : ℤ) = 5 := by norm_num [seriesC3Rec, Series.n]
    rw [h5] at h2
    have h1' : 2 ≤ j := by simpa using h1
    have hj : j = 2 ∨ j = 3 ∨ j = 4 := by omega
    rcases hj with rfl | rfl | rfl
    · norm_num [hyperSustainLoop, seriesC3Rec, hyperCfg180, Series.n, Series.tvz,
        Series.validz, Series.gvalz, getQZ, getOZ]
    · norm_num [seriesC3Rec, hyperCfg180, Series.gvalz, getOZ] at hle
    · norm_num [seriesC3Rec, hyperCfg180, Series.gvalz, getOZ] at hle
  exact ⟨by decide, hno,
    C3_end_of_data_close hyperCfg180 hypoCfg15 seriesC3Rec ((0 : ℤ), (1 : ℤ)) (by decide) hno⟩

/-! ## Claim C4 -/

/-- C4, counterexample.  On the spec's own example series the claim
expects one episode starting at t=10 min and ending at t=25 min, that is
the index pair `(2, 5)`.  The value 68 at t=30 min is still strictly
below the entry threshold 70, so the last qualifying reading before
recovery is index 6: the detector emits `(2, 6)` (end t=30 min), not
`(2, 5)`. -/
theorem C4_counterexample :
    extractEpisodes (calculateHypoEventsForId hypoCfg15 seriesSpecExample) = [(2, 6)] ∧
    extractEpisodes (calculateHypoEventsForId hypoCfg15 seriesSpecExample) ≠ [(2, 5)] := by
  have h : extractEpisodes (calculateHypoEventsForId hypoCfg15 seriesSpecExample) =
      [(2, 6)] := by
    norm_num [calculateHypoEventsForId, hypoLoop, hypoStep, hypoRecLoop, hypoFinalize,
      hypoCoreAccept, hypoCoreDuration, hypoEmit, Series.n, Series.tv, Series.tvz,
      Series.valid, Series.gval, seriesSpecExample, hypoCfg15, epsMin, setIdx, setIdxZ,
      getQZ, List.replicate, extractEpisodes, extractEpisodesAux]
  exact ⟨h, by rw [h]; simp⟩

/-- C4, original row indices of the single-subject example. -/
def witIdx9 : List ℤ := [0, 1, 2, 3, 4, 5, 6, 7, 8]

/-- C4, amended.  On the spec example series the detector emits exactly
one episode with `end_index` the last qualifying (below-70) reading,
index 6 at t=30 min and value 68; the detailed row computes
`duration_minutes` and `average_glucose` over `[start_index, end_index]`:
start t=600 s (t=10 min, value 65), end t=1800 s, 1-based original indices
3 and 7, duration `(1800 - 600) / 60 + 5 = 25` minutes, zero minutes below
54, and average `(65 + 60 + 55 + 60 + 68) / 5 = 308 / 5` over indices
2 to 6. -/
theorem C4_spec_example_row :
    processEventsRows hypoCfg15 seriesSpecExample witIdx9
      (calculateHypoEventsForId hypoCfg15 seriesSpecExample) =
      [{ startTime := 600, startGlV := 65, endTime := 1800, endGlV := 68,
         startIdx := 3, endIdx := 7, durationMin := 25, below54 := 0,
         avgGl := 308 / 5 }] := by
  have h : calculateHypoEventsForId hypoCfg15 seriesSpecExample =
      [0, 0, 2, 0, 0, 0, -1, 0, 0] := by
    norm_num [calculateHypoEventsForId, hypoLoop, hypoStep, hypoRecLoop, hypoFinalize,
      hypoCoreAccept, hypoCoreDuration, hypoEmit, Series.n, Series.tv, Series.tvz,
      Series.valid, Series.gval, seriesSpecExample, hypoCfg15, epsMin, setIdx, setIdxZ,
      getQZ, List.replicate]
  have hmets : episodeMetrics seriesSpecExample 2 6 = (0, 308 / 5) := by
    norm_num [episodeMetrics, metricsAux, Series.n, Series.tvz, Series.validz,
      Series.gvalz, seriesSpecExample, getQZ, getOZ]
  have hrow : mkEventRow hypoCfg15 seriesSpecExample witIdx9 2 6 =
      { startTime := 600, startGlV := 65, endTime := 1800, endGlV := 68,
        startIdx := 3, endIdx := 7, durationMin := 25, below54 := 0,
        avgGl := 308 / 5 } := by
    simp only [mkEventRow, Nat.cast_ofNat, hmets]
    norm_num [getZZ, Series.tvz, Series.gvalz, seriesSpecExample,
      hypoCfg15, witIdx9, getQZ, getOZ]
  have hlen : ((witIdx9.length : ℤ)) = 9 := by norm_num [witIdx9]
  rw [h]
  norm_num [processEventsRows, processRowsAux, hlen, hrow]

/-! ## Claim C5 -/

/-- Helper: shifting a bounded integer existential past an index that
fails the predicate. -/
theorem exists_shift_of_not {P : ℤ → Prop} (i hi : ℤ) (hPi : ¬ P i) :
    (∃ j : ℤ, i + 1 ≤ j ∧ j < hi ∧ P j) ↔ ∃ j : ℤ, i ≤ j ∧ j < hi ∧ P j := by
  constructor
  · rintro ⟨j, h1, h2, h3⟩
    exact ⟨j, by omega, h2, h3⟩
  · rintro ⟨j, h1, h2, h3⟩
    rcases eq_or_lt_of_le h1 with heq | hlt
    · exact absurd (heq ▸ h3) hPi
    · exact ⟨j, by omega, h2, h3⟩

/-- Helper: the between-events recovery scan of the unified detector is a
first-success search; with enough fuel it succeeds exactly when some index
in `[i, hi)` is a valid reading at or below `end_gl` whose recovery-side
run spans at least `end_length + reading_minutes` minutes. -/
theorem rfbLoop_iff (cfg : HyperCfg) (s : Series) (hi : ℤ) :
    ∀ (fuel : ℕ) (i : ℤ), hi ≤ i + (fuel : ℤ) →
      (rfbLoop cfg s hi fuel i = true ↔
        ∃ j : ℤ, i ≤ j ∧ j < hi ∧ s.validz j = true ∧ s.gvalz j ≤ cfg.endGl ∧
          (recRunAll cfg s s.n j (0, 0)).1 / 60 - cfg.readingMinutes ≥ cfg.endLength) := by
  intro fuel
  induction fuel with
  | zero =>
    intro i hfu
    rw [rfbLoop]
    simp only [Nat.cast_zero, add_zero] at hfu
    constructor
    · intro hfalse
      exact absurd hfalse (by simp)
    · rintro ⟨j, h1, h2, _⟩
      omega
  | succ fuel ih =>
    intro i hfu
    rw [rfbLoop]
    by_cases hih : i < hi
    · rw [if_pos hih]
      have hfu1 : hi ≤ (i + 1) + (fuel : ℤ) := by push_cast at hfu ⊢; omega
      by_cases hv : s.validz i = true
      · rw [if_neg (by simp [hv])]
        by_cases hg : s.gvalz i ≤ cfg.endGl
        · rw [if_pos hg]
          by_cases hr : (recRunAll cfg s s.n i (0, 0)).1 / 60 - cfg.readingMinutes ≥
              cfg.endLength
          · rw [if_pos hr]
            simp only [true_iff]
            exact ⟨i, le_refl i, hih, hv, hg, hr⟩
          · rw [if_neg hr, ih (i + 1) hfu1]
            exact exists_shift_of_not i hi (by tauto)
        · rw [if_neg hg, ih (i + 1) hfu1]
          exact exists_shift_of_not i hi (by tauto)
      · rw [if_pos (by simpa using hv), ih (i + 1) hfu1]
        exact exists_shift_of_not i hi (by tauto)
    · rw [if_neg hih]
      constructor
      · intro hfalse
        exact absurd hfalse (by simp)
      · rintro ⟨j, h1, h2, _⟩
        omega

/-- C5, amended.  In the unified detector (full-event mode), a later core
interval is absorbed into the previous episode (the merge decision
`hyperAllIsNew` is false) exactly when a previous episode end is recorded
and no reading strictly between that end and the later core's start is a
valid reading at or below the recovery threshold whose recovery-side run
spans at least `min_recovery_duration + nominal_sampling_minutes` minutes
(the code requires `sustained_secs / 60 - reading_minutes >= end_length`,
one sampling interval more than the claim's `min_recovery_duration`). -/
theorem C5_merge_characterization (cfg : HyperCfg) (s : Series) (lastEnd cs : ℤ)
    (h1 : -1 ≤ lastEnd) (h2 : cs ≤ (s.n : ℤ)) :
    hyperAllIsNew cfg s lastEnd cs = false ↔
      lastEnd ≠ -1 ∧
      ¬ ∃ j : ℤ, lastEnd < j ∧ j < cs ∧ s.validz j = true ∧ s.gvalz j ≤ cfg.endGl ∧
        (recRunAll cfg s s.n j (0, 0)).1 / 60 - cfg.readingMinutes ≥ cfg.endLength := by
  rw [hyperAllIsNew]
  by_cases hle : lastEnd = -1
  · rw [if_pos hle]
    simp [hle]
  · rw [if_neg hle, recoveryFoundBetween]
    have hiff := rfbLoop_iff cfg s cs s.n (lastEnd + 1) (by omega)
    constructor
    · intro hfalse
      refine ⟨hle, fun hex => ?_⟩
      obtain ⟨j, hj1, hj2, hj3⟩ := hex
      have : rfbLoop cfg s cs s.n (lastEnd + 1) = true :=
        hiff.mpr ⟨j, by omega, hj2, hj3⟩
      rw [this] at hfalse
      exact absurd hfalse (by simp)
    · rintro ⟨_, hnex⟩
      by_cases hb : rfbLoop cfg s cs s.n (lastEnd + 1) = true
      · obtain ⟨j, hj1, hj2, hj3⟩ := hiff.mp hb
        exact absurd ⟨j, by omega, hj2, hj3⟩ hnex
      · simpa using hb

/-- C5, witness: in the counterexample series, after the first episode
ends at index 2, the second core starting at index 2 is absorbed (the
merge decision is false, the between-range being empty). -/
theorem C5_merge_characterization_witness :
    hyperAllIsNew hyperCfgRm15 seriesTwoExc 2 2 = false :=
  (C5_merge_characterization hyperCfgRm15 seriesTwoExc 2 2 (by norm_num)
    (by norm_num [Series.n, seriesTwoExc])).mpr
    ⟨by norm_num, by rintro ⟨j, hj1, hj2, _⟩; omega⟩

/-- C5, counterexample.  The claim says two excursions separated by a
qualifying recovery — crossing the recovery threshold and sustained for
the minimum recovery duration — yield two distinct episodes.  On
`seriesTwoExc` (15-minute sampling) the unified detector accepts two core
intervals, and the reading at index 1 between them crosses the threshold
with a recovery-side span of 15 minutes (the minimum recovery duration),
yet exactly one episode is emitted: the code demands
`end_length + reading_minutes = 30` minutes between episodes. -/
theorem C5_counterexample :
    hyperAllCores hyperCfgRm15 seriesTwoExc = [(0, 0), (2, 2)] ∧
    specQualifyingRecoveryBetween hyperCfgRm15 seriesTwoExc 0 2 ∧
    extractEpisodes (calculateHyperglycemicEventsAll hyperCfgRm15 seriesTwoExc) =
      [(0, 2)] ∧
    (extractEpisodes (calculateHyperglycemicEventsAll hyperCfgRm15 seriesTwoExc)).length
      = 1 := by
  have hepi : extractEpisodes (calculateHyperglycemicEventsAll hyperCfgRm15 seriesTwoExc) =
      [(0, 2)] := by
    norm_num [calculateHyperglycemicEventsAll, hyperAllCores, hyperAllP1Loop,
      hyperAllP1Step, hyperAllP2StepFull, hyperAllP2StepCore, hyperAllIsNew,
      recoveryFoundBetween, rfbLoop, recRunAll, hyperAllScan, Series.n, Series.tv,
      Series.tvz, Series.valid, Series.validz, Series.gval, Series.gvalz, seriesTwoExc,
      hyperCfgRm15, epsMin, setIdx, setIdxZ, getQZ, getOZ, List.replicate,
      extractEpisodes, extractEpisodesAux]
  refine ⟨?_, ?_, hepi, by rw [hepi]; rfl⟩
  · norm_num [hyperAllCores, hyperAllP1Loop, hyperAllP1Step, Series.n, Series.tv,
      Series.valid, Series.gval, seriesTwoExc, hyperCfgRm15, epsMin]
  · refine ⟨1, by norm_num, by norm_num, ?_, ?_, ?_⟩
    · norm_num [Series.validz, getOZ, seriesTwoExc]
    · norm_num [Series.gvalz, getOZ, seriesTwoExc, hyperCfgRm15]
    · norm_num [recRunAll, Series.n, Series.tvz, Series.gvalz, getQZ, getOZ,
        seriesTwoExc, hyperCfgRm15]

/-! ## Claim C6 -/

/-- C6, broad (level-1) episode statistics detected on `seriesNested`. -/
def lv1StatsNested : List EpStat :=
  processStats seriesNested 15 (calculateHyperglycemicEventsAll hyperCfgRm15 seriesNested)

/-- C6, narrow (level-2) episode statistics detected on `seriesNested`. -/
def lv2StatsNested : List EpStat :=
  processStats seriesNested 15 (calculateHyperglycemicEventsAll hyperCfgLv2Rm15 seriesNested)

set_option maxHeartbeats 1600000 in
/-- C6, counterexample.  On `seriesNested` the broad (level-1) detector
finds one episode covering `[0 s, 2700 s]` and the narrow (level-2)
detector one episode covering `[0 s, 1800 s]`; they overlap, so the
overlap-mode exclusive set is empty.  The claimed identity
`level1_excl ∪ level2 = level1` fails: the union of detected intervals is
`{[0, 1800]}`, which does not contain the level-1 interval
`[0, 2700]`. -/
theorem C6_counterexample :
    lv1StatsNested.map epInterval = [(0, 2700)] ∧
    lv2StatsNested.map epInterval = [(0, 1800)] ∧
    lv1ExclStats lv1StatsNested lv2StatsNested = [] ∧
    (lv1ExclStats lv1StatsNested lv2StatsNested ++ lv2StatsNested).map epInterval =
      [(0, 1800)] ∧
    (((0 : ℚ), (2700 : ℚ)) ∉
      (lv1ExclStats lv1StatsNested lv2StatsNested ++ lv2StatsNested).map epInterval) ∧
    ((0 : ℚ), (2700 : ℚ)) ∈ lv1StatsNested.map epInterval := by
  have hm1 : calculateHyperglycemicEventsAll hyperCfgRm15 seriesNested =
      [2, 0, 0, -1, 0, 0, 0] := by
    norm_num [calculateHyperglycemicEventsAll, hyperAllCores, hyperAllP1Loop,
      hyperAllP1Step, hyperAllP2StepFull, hyperAllP2StepCore, hyperAllIsNew,
      recoveryFoundBetween, rfbLoop, recRunAll, hyperAllScan, Series.n, Series.tv,
      Series.tvz, Series.valid, Series.validz, Series.gval, Series.gvalz, seriesNested,
      hyperCfgRm15, epsMin, setIdx, setIdxZ, getQZ, getOZ, List.replicate]
  have hm2 : calculateHyperglycemicEventsAll hyperCfgLv2Rm15 seriesNested =
      [2, 0, -1, 0, 0, 0, 0] := by
    norm_num [calculateHyperglycemicEventsAll, hyperAllCores, hyperAllP1Loop,
      hyperAllP1Step, hyperAllP2StepFull, hyperAllP2StepCore, hyperAllIsNew,
      recoveryFoundBetween, rfbLoop, recRunAll, hyperAllScan, Series.n, Series.tv,
      Series.tvz, Series.valid, Series.validz, Series.gval, Series.gvalz, seriesNested,
      hyperCfgLv2Rm15, epsMin, setIdx, setIdxZ, getQZ, getOZ, List.replicate]
  have hs1 : lv1StatsNested =
      [{ time := 0, duration := 45, avgGl := 300, startIdx := 1, endIdx := 3 }] := by
    rw [lv1StatsNested, hm1]
    norm_num [processStats, processStatsAux, mkEpStat, glAvg, glAvgAux, Series.n,
      Series.tvz, Series.validz, Series.gvalz, seriesNested, getQZ, getOZ]
  have hs2 : lv2StatsNested =
      [{ time := 0, duration := 30, avgGl := 300, startIdx := 1, endIdx := 2 }] := by
    rw [lv2StatsNested, hm2]
    norm_num [processStats, processStatsAux, mkEpStat, glAvg, glAvgAux, Series.n,
      Series.tvz, Series.validz, Series.gvalz, seriesNested, getQZ, getOZ]
  rw [hs1, hs2]
  norm_num [lv1ExclStats, epOverlap, epInterval, List.filter]

/-- C6, amended.  In overlap mode the exclusive band is exactly the set of
broad episodes whose interval overlaps no narrow episode (this part of the
claim holds), and — provided every narrow episode has positive duration —
no exclusive episode is itself a narrow episode, so
`level1_excl ∩ level2 = ∅`; but `level1_excl ∪ level2 = level1` fails in
general because a narrow episode's interval need not be a broad episode's
interval (see the counterexample). -/
theorem C6_overlap_filter_characterization (l1 l2 : List EpStat)
    (hpos : ∀ e ∈ l2, 0 < e.duration) :
    (∀ e : EpStat, e ∈ lv1ExclStats l1 l2 ↔
      e ∈ l1 ∧ ∀ e2 ∈ l2, epOverlap e e2 = false) ∧
    (∀ e ∈ lv1ExclStats l1 l2, e ∉ l2) := by
  have hchar : ∀ e : EpStat, e ∈ lv1ExclStats l1 l2 ↔
      e ∈ l1 ∧ ∀ e2 ∈ l2, epOverlap e e2 = false := by
    intro e
    rw [lv1ExclStats]
    by_cases h1 : l1 = []
    · rw [if_pos h1]
      simp [h1]
    · rw [if_neg h1]
      by_cases h2 : l2 = []
      · rw [if_pos h2]
        simp [h2]
      · rw [if_neg h2]
        rw [List.mem_filter, List.all_eq_true]
        constructor
        · rintro ⟨hmem, hall⟩
          refine ⟨hmem, fun e2 he2 => ?_⟩
          have := hall e2 he2
          simpa using this
        · rintro ⟨hmem, hall⟩
          refine ⟨hmem, fun e2 he2 => ?_⟩
          simpa using hall e2 he2
  refine ⟨hchar, fun e he hmem2 => ?_⟩
  have hov : epOverlap e e = false := ((hchar e).mp he).2 e hmem2
  have hd : 0 < e.duration := hpos e hmem2
  rw [epOverlap] at hov
  simp only [decide_eq_false_iff_not, not_not] at hov
  rcases hov with hle | hle
  all_goals nlinarith [hle, hd]

/-- C6, witness episode lists: one broad and one narrow episode with
disjoint intervals and positive durations. -/
def witLv1List : List EpStat :=
  [{ time := 0, duration := 45, avgGl := 300, startIdx := 1, endIdx := 3 }]

/-- C6, witness narrow list (an episode far away in time). -/
def witLv2List : List EpStat :=
  [{ time := 100000, duration := 30, avgGl := 300, startIdx := 9, endIdx := 10 }]

/-- C6, witness: the disjoint broad episode survives the exclusive filter
and is not a narrow episode. -/
theorem C6_overlap_filter_witness :
    ({ time := 0, duration := 45, avgGl := 300, startIdx := 1, endIdx := 3 } : EpStat)
      ∉ witLv2List :=
  (C6_overlap_filter_characterization witLv1List witLv2List
    (by intro e he; simp [witLv2List] at he; rw [he]; norm_num)).2 _
    (by
      rw [lv1ExclStats]
      norm_num [witLv1List, witLv2List, epOverlap, List.filter])

/-! ## Claim C7 -/

/-- Closed form of `roundedEpPerDay`: the rounded rate when the span is
positive and the count nonzero, `0` in every other case (the source's
`epd == 0.0` guard). -/
theorem roundedEpPerDay_eq (c : ℕ) (td : ℚ) :
    roundedEpPerDay c td =
      if 0 < td ∧ 0 < c then (roundQ ((c : ℚ) / td * 100) : ℚ) / 100 else 0 := by
  rw [roundedEpPerDay]
  by_cases h1 : 0 < td
  · by_cases h2 : 0 < c
    · have hpos : 0 < (c : ℚ) / td := div_pos (by exact_mod_cast h2) h1
      simp only [if_pos h1, if_pos (And.intro h1 h2)]
      rw [if_neg (ne_of_gt hpos)]
    · have hc0 : c = 0 := Nat.eq_zero_of_not_pos h2
      subst hc0
      simp [h1]
  · have hno : ¬ (0 < td ∧ 0 < c) := fun h => h1 h.1
    simp [h1, hno]

/-- Half-away-from-zero rounding of a nonnegative rational is
nonnegative. -/
theorem roundQ_nonneg (x : ℚ) (hx : 0 ≤ x) : 0 ≤ roundQ x := by
  rw [roundQ, if_neg (not_lt.mpr hx)]
  exact Int.floor_nonneg.mpr (by linarith)

/-- C7: per-subject rate arithmetic of `create_events_total_df`.  For a
nonempty time list, `total_days` is the full series span divided by 86400;
`avg_ep_per_day` equals `round2(count / total_days)` exactly when the span
is positive and the count nonzero, and is exactly `0` otherwise; the
reported rate is never negative; and a zero episode count always reports
exactly `0`. -/
theorem C7_rate_arithmetic (count : ℕ) (tl : List ℚ) (hne : tl ≠ []) :
    totalDays tl = (tl.getD (tl.length - 1) 0 - tl.getD 0 0) / 86400 ∧
    roundedEpPerDay count (totalDays tl) =
      (if 0 < totalDays tl ∧ 0 < count then
        (roundQ ((count : ℚ) / totalDays tl * 100) : ℚ) / 100 else 0) ∧
    0 ≤ roundedEpPerDay count (totalDays tl) ∧
    (count = 0 → roundedEpPerDay count (totalDays tl) = 0) := by
  have hlen : 0 < tl.length := List.length_pos.mpr hne
  have htd : totalDays tl = (tl.getD (tl.length - 1) 0 - tl.getD 0 0) / 86400 := by
    rw [totalDays, if_pos hlen]; norm_num
  refine ⟨htd, roundedEpPerDay_eq _ _, ?_, ?_⟩
  · rw [roundedEpPerDay_eq]
    by_cases h : 0 < totalDays tl ∧ 0 < count
    · rw [if_pos h]
      have hx : (0 : ℚ) ≤ (count : ℚ) / totalDays tl * 100 :=
        mul_nonneg (div_nonneg (Nat.cast_nonneg _) h.1.le) (by norm_num)
      have hr := roundQ_nonneg _ hx
      have hr2 : (0 : ℚ) ≤ (roundQ ((count : ℚ) / totalDays tl * 100) : ℚ) := by
        exact_mod_cast hr
      linarith
    · rw [if_neg h]
  · intro hc
    subst hc
    rw [roundedEpPerDay_eq]
    simp

/-- C7, witness: a one-day span with two episodes.  `total_days = 1` and
the reported rate reduces to the rounded quotient. -/
theorem C7_rate_arithmetic_witness :
    ([(0 : ℚ), 86400] ≠ []) ∧
    (totalDays [(0 : ℚ), 86400] =
        ([(0 : ℚ), 86400].getD ([(0 : ℚ), 86400].length - 1) 0 -
          [(0 : ℚ), 86400].getD 0 0) / 86400 ∧
      roundedEpPerDay 2 (totalDays [(0 : ℚ), 86400]) =
        (if 0 < totalDays [(0 : ℚ), 86400] ∧ 0 < 2 then
          (roundQ (((2 : ℕ) : ℚ) / totalDays [(0 : ℚ), 86400] * 100) : ℚ) / 100 else 0) ∧
      0 ≤ roundedEpPerDay 2 (totalDays [(0 : ℚ), 86400]) ∧
      ((2 : ℕ) = 0 → roundedEpPerDay 2 (totalDays [(0 : ℚ), 86400]) = 0)) :=
  ⟨List.cons_ne_nil _ _, C7_rate_arithmetic 2 [(0 : ℚ), 86400] (List.cons_ne_nil _ _)⟩

/-! ## Claim C8 -/

/-- C8, witness state: an in-progress hypoglycemic event over the first
three readings of `seriesNA`. -/
def witStC8 : HypoState :=
  { markers := [0, 0, 0, 0, 0, 0, 0, 0], inEvent := true, eventStart := 0,
    hypoCount := 3, lastHypo := 2 }

set_option maxHeartbeats 1600000 in
/-- C8, counterexample.  `seriesNA` and `seriesNA2` differ only at index 4,
where `seriesNA` has an NA reading and `seriesNA2` the recovered value 100.
The claim says an NA reading never breaks a recovery run; but the unified
detector's recovery loop compares the cached `0.0` of the NA against the
threshold, so on `seriesNA` the run started at index 3 stops after 300 s
(a spec-side NA-skipping run accumulates 1200 s), the 15-minute recovery
is never confirmed, and the detectors disagree: `seriesNA` yields the
episode `(0, 7)` while `seriesNA2` yields `(0, 2)`. -/
theorem C8_counterexample :
    seriesNA.valid 4 = false ∧ seriesNA2.valid 4 = true ∧
    seriesNA.t = seriesNA2.t ∧
    seriesNA.g.set 4 (some 100) = seriesNA2.g ∧
    (hypoAllRecLoop hypoCfg15 seriesNA seriesNA.n 3 (0, 3)).1.1 = 300 ∧
    specRecRunSkipNA hypoCfg15 seriesNA seriesNA.n 3 0 = 1200 ∧
    extractEpisodes (calculateHypoglycemicEventsAll hypoCfg15 seriesNA) = [(0, 7)] ∧
    extractEpisodes (calculateHypoglycemicEventsAll hypoCfg15 seriesNA2) = [(0, 2)] := by
  refine ⟨by norm_num [seriesNA, Series.valid], by norm_num [seriesNA2, Series.valid],
    by norm_num [seriesNA, seriesNA2], by norm_num [seriesNA, seriesNA2, List.set],
    ?_, ?_, ?_, ?_⟩
  · norm_num [hypoAllRecLoop, hypoCfg15, seriesNA, Series.n, Series.tvz, Series.validz,
      Series.gvalz, getQZ, getOZ]
  · norm_num [specRecRunSkipNA, hypoCfg15, seriesNA, Series.n, Series.tvz, Series.validz,
      Series.gvalz, getQZ, getOZ]
  · norm_num [calculateHypoglycemicEventsAll, hypoAllLoop, hypoAllStep, hypoAllRecLoop,
      hypoFinalize, hypoCoreAccept, hypoCoreDuration, hypoEmit, Series.n, Series.tv,
      Series.tvz, Series.valid, Series.validz, Series.gval, Series.gvalz, seriesNA,
      hypoCfg15, epsMin, setIdxZ, getQZ, getOZ, List.replicate, extractEpisodes,
      extractEpisodesAux]
  · norm_num [calculateHypoglycemicEventsAll, hypoAllLoop, hypoAllStep, hypoAllRecLoop,
      hypoFinalize, hypoCoreAccept, hypoCoreDuration, hypoEmit, Series.n, Series.tv,
      Series.tvz, Series.valid, Series.validz, Series.gval, Series.gvalz, seriesNA2,
      hypoCfg15, epsMin, setIdxZ, getQZ, getOZ, List.replicate, extractEpisodes,
      extractEpisodesAux]

/-- C8, amended.  The part of the claim that does hold: at the main-loop
level an NA reading that does not open a large gap is skipped outright by
both hypoglycemic detectors — it neither enters, extends, nor closes an
event — while its timestamp still feeds the gap test of the step (the gap
condition reads `t[i] - t[i-1]` regardless of validity).  The NA reading
is however not transparent to the recovery-run loop, which treats its
cached `0.0` as a threshold crossing (see the counterexample). -/
theorem C8_na_skipped_by_steps (cfg : HypoCfg) (s : Series) (i : ℕ) (st : HypoState)
    (hna : s.valid i = false)
    (hgap : ¬ (0 < i ∧ s.tv i - s.tv (i - 1) > (cfg.endLength + epsMin) * 60)) :
    hypoStep cfg s i st = st ∧ hypoAllStep cfg s i st = st := by
  constructor
  · rw [hypoStep, if_neg hgap, if_pos (by simp [hna])]
  · rw [hypoAllStep, if_neg hgap, if_pos (by simp [hna])]

/-- C8, witness: the NA reading of `seriesNA` (index 4, no gap) leaves an
in-progress event state untouched in both detectors. -/
theorem C8_na_skipped_by_steps_witness :
    seriesNA.valid 4 = false ∧
    ¬ (0 < 4 ∧ seriesNA.tv 4 - seriesNA.tv (4 - 1) > (hypoCfg15.endLength + epsMin) * 60) ∧
    (hypoStep hypoCfg15 seriesNA 4 witStC8 = witStC8 ∧
      hypoAllStep hypoCfg15 seriesNA 4 witStC8 = witStC8) :=
  ⟨by norm_num [seriesNA, Series.valid],
    by norm_num [seriesNA, Series.tv, hypoCfg15, epsMin],
    C8_na_skipped_by_steps hypoCfg15 seriesNA 4 witStC8
      (by norm_num [seriesNA, Series.valid])
      (by norm_num [seriesNA, Series.tv, hypoCfg15, epsMin])⟩

/-! ## Claim C9 -/

/-- C9, counterexample.  Subject ids arriving in the order `["B", "A"]`
come out of the `std::map`-backed grouping in sorted key order
`["A", "B"]`, not in the first-seen order `["B", "A"]` required by the
claim. -/
theorem C9_counterexample :
    groupKeys ["B", "A"] = ["A", "B"] ∧ firstSeenOrder ["B", "A"] = ["B", "A"] ∧
    groupKeys ["B", "A"] ≠ firstSeenOrder ["B", "A"] := by
  have e1 : mapInsertKey ([] : List String) "B" = ["B"] := by
    rw [mapInsertKey, if_neg (List.not_mem_nil _), List.orderedInsert_nil]
  have e2 : mapInsertKey ["B"] "A" = ["A", "B"] := by
    rw [mapInsertKey, if_neg (by simp), List.orderedInsert, if_pos (by simp; decide)]
  have h1 : groupKeys ["B", "A"] = ["A", "B"] := by
    rw [groupKeys, List.foldl_cons, List.foldl_cons, List.foldl_nil, e1, e2]
  have h2 : firstSeenOrder ["B", "A"] = ["B", "A"] := by decide
  refine ⟨h1, h2, ?_⟩
  rw [h1, h2]
  simp

/-- Invariant of the `std::map` key-insertion fold: starting from a sorted
duplicate-free accumulator, the result is sorted, duplicate-free, and its
members are those of the accumulator and of the inserted ids. -/
theorem groupKeys_foldl {α : Type} [LinearOrder α] :
    ∀ (ids : List α) (acc : List α), acc.Sorted (· ≤ ·) → acc.Nodup →
      (ids.foldl mapInsertKey acc).Sorted (· ≤ ·) ∧
      (ids.foldl mapInsertKey acc).Nodup ∧
      ∀ k, k ∈ ids.foldl mapInsertKey acc ↔ k ∈ acc ∨ k ∈ ids := by
  intro ids
  induction ids with
  | nil =>
    intro acc hs hn
    refine ⟨hs, hn, fun k => ?_⟩
    simp
  | cons x xs ih =>
    intro acc hs hn
    have hs' : (mapInsertKey acc x).Sorted (· ≤ ·) := by
      rw [mapInsertKey]
      by_cases hmem : x ∈ acc
      · rw [if_pos hmem]; exact hs
      · rw [if_neg hmem]; exact hs.orderedInsert x acc
    have hn' : (mapInsertKey acc x).Nodup := by
      rw [mapInsertKey]
      by_cases hmem : x ∈ acc
      · rw [if_pos hmem]; exact hn
      · rw [if_neg hmem]
        exact ((acc.perm_orderedInsert (· ≤ ·) x).nodup_iff).mpr (hn.cons hmem)
    have hmem' : ∀ k, k ∈ mapInsertKey acc x ↔ k ∈ acc ∨ k = x := by
      intro k
      rw [mapInsertKey]
      by_cases hmem : x ∈ acc
      · rw [if_pos hmem]
        constructor
        · exact fun h => Or.inl h
        · rintro (h | rfl)
          · exact h
          · exact hmem
      · rw [if_neg hmem, List.mem_orderedInsert]
        tauto
    obtain ⟨h1, h2, h3⟩ := ih (mapInsertKey acc x) hs' hn'
    refine ⟨h1, h2, fun k => ?_⟩
    rw [List.foldl_cons] at *
    rw [h3 k, hmem' k, List.mem_cons]
    tauto

/-- C9, amended.  `group_by_id` stores the per-subject indices in a
`std::map<std::string, ...>`, so every loop over it visits the subjects in
sorted (lexicographic) key order: the output subject order is the sorted
key order — deterministic and independent of processing order, but not
the first-seen order of the claim.  The key list is sorted, contains each
subject exactly once, and contains exactly the subjects of the input. -/
theorem C9_map_order (ids : List String) :
    (groupKeys ids).Sorted (· ≤ ·) ∧ (groupKeys ids).Nodup ∧
    ∀ k, k ∈ groupKeys ids ↔ k ∈ ids := by
  obtain ⟨h1, h2, h3⟩ := groupKeys_foldl ids [] (List.sorted_nil) (List.nodup_nil)
  exact ⟨h1, h2, fun k => by rw [groupKeys, h3 k]; simp⟩

/-! ## Claim C10 -/

/-- An in-bounds integer-indexed access into an integer list is a member
of the list. -/
theorem getZZ_mem : ∀ (l : List ℤ) (i : ℤ), 0 ≤ i → i < (l.length : ℤ) → getZZ l i ∈ l := by
  intro l
  induction l with
  | nil =>
    intro i h0 hl
    simp at hl
    omega
  | cons x xs ih =>
    intro i h0 hl
    rw [getZZ]
    by_cases hi : i = 0
    · rw [if_pos hi]
      exact List.mem_cons_self x xs
    · rw [if_neg hi, if_neg (by omega)]
      refine List.mem_cons_of_mem x (ih (i - 1) (by omega) ?_)
      rw [List.length_cons] at hl
      push_cast at hl ⊢
      omega

/-- Every row collected by the marker walk has both stored indices equal
to an entry of the subject's original-row index vector plus one; if every
entry of that vector is an original 0-based row position, both stored
indices are 1-based positions into the original table. -/
theorem processRowsAux_indices (cfg : HypoCfg) (s : Series) (indices : List ℤ) (N : ℤ)
    (hidx : ∀ x ∈ indices, 0 ≤ x ∧ x < N) :
    ∀ (m : List ℤ) (i : ℕ) (cur : ℤ) (row : EventRow),
      row ∈ processRowsAux cfg s indices m i cur →
      (1 ≤ row.startIdx ∧ row.startIdx ≤ N) ∧ (1 ≤ row.endIdx ∧ row.endIdx ≤ N) ∧
      ∃ a b : ℤ, 0 ≤ a ∧ a < (indices.length : ℤ) ∧ 0 ≤ b ∧ b < (indices.length : ℤ) ∧
        row.startIdx = getZZ indices a + 1 ∧ row.endIdx = getZZ indices b + 1 := by
  intro m
  induction m with
  | nil =>
    intro i cur row h
    rw [processRowsAux] at h
    simp at h
  | cons v rest ih =>
    intro i cur row h
    rw [processRowsAux] at h
    by_cases h2 : v = 2
    · rw [if_pos h2] at h
      exact ih _ _ _ h
    · rw [if_neg h2] at h
      by_cases hm1 : v = -1 ∧ cur ≠ -1
      · rw [if_pos hm1] at h
        by_cases hb : 0 ≤ cur ∧ cur < (indices.length : ℤ) ∧ (i : ℤ) < (indices.length : ℤ)
        · rw [if_pos hb] at h
          rcases List.mem_cons.mp h with heq | hmem
          · subst heq
            obtain ⟨hc0, hcl, hil⟩ := hb
            have hi0 : (0 : ℤ) ≤ (i : ℤ) := by positivity
            have hsm : getZZ indices cur ∈ indices := getZZ_mem indices cur hc0 hcl
            have hem : getZZ indices (i : ℤ) ∈ indices := getZZ_mem indices (i : ℤ) hi0 hil
            obtain ⟨hs0, hsN⟩ := hidx _ hsm
            obtain ⟨he0, heN⟩ := hidx _ hem
            refine ⟨⟨?_, ?_⟩, ⟨?_, ?_⟩, cur, (i : ℤ), hc0, hcl, hi0, hil, ?_, ?_⟩
            all_goals simp only [mkEventRow]
            all_goals omega
          · exact ih _ _ _ hmem
        · rw [if_neg hb] at h
          exact ih _ _ _ h
      · rw [if_neg hm1] at h
        exact ih _ _ _ h

/-- C10: the `start_indices` / `end_indices` cells of the detailed
episodes table are 1-based positions into the original input table.  Each
equals an episode boundary's 0-based position mapped through the subject's
original row indices plus one, and when every original row index lies in
`[0, N)` both cells lie in `[1, N]`. -/
theorem C10_row_indices (cfg : HypoCfg) (s : Series) (indices : List ℤ) (m : List ℤ)
    (N : ℤ) (hidx : ∀ x ∈ indices, 0 ≤ x ∧ x < N) :
    ∀ row ∈ processEventsRows cfg s indices m,
      (1 ≤ row.startIdx ∧ row.startIdx ≤ N) ∧ (1 ≤ row.endIdx ∧ row.endIdx ≤ N) ∧
      ∃ a b : ℤ, 0 ≤ a ∧ a < (indices.length : ℤ) ∧ 0 ≤ b ∧ b < (indices.length : ℤ) ∧
        row.startIdx = getZZ indices a + 1 ∧ row.endIdx = getZZ indices b + 1 := by
  intro row h
  exact processRowsAux_indices cfg s indices N hidx m 0 (-1) row h

/-- C10, witness: a four-row subject whose single episode spans markers
`2, 0, -1`; both stored indices land in `[1, 4]`. -/
theorem C10_row_indices_witness :
    (∀ x ∈ ([0, 1, 2, 3] : List ℤ), 0 ≤ x ∧ x < 4) ∧
    ∀ row ∈ processEventsRows hypoCfg15 seriesGap [0, 1, 2, 3] [2, 0, -1, 0],
      (1 ≤ row.startIdx ∧ row.startIdx ≤ 4) ∧ (1 ≤ row.endIdx ∧ row.endIdx ≤ 4) ∧
      ∃ a b : ℤ, 0 ≤ a ∧ a < (([0, 1, 2, 3] : List ℤ).length : ℤ) ∧ 0 ≤ b ∧
        b < (([0, 1, 2, 3] : List ℤ).length : ℤ) ∧
        row.startIdx = getZZ [0, 1, 2, 3] a + 1 ∧ row.endIdx = getZZ [0, 1, 2, 3] b + 1 :=
  ⟨by decide, C10_row_indices hypoCfg15 seriesGap [0, 1, 2, 3] [2, 0, -1, 0] 4 (by decide)⟩

end CgmGuru
